import Mathlib

/-
Verification development for the seahorse command-line framework.

The repository sources verified here are src/app.rs (the `App` entry points,
command selection and help-text formatting) and src/context.rs (the flag
scanner `Context::new` and the typed flag accessors).  The crate modules
flag.rs, utils.rs, error.rs and command.rs are not part of the provided
sources; the definitions embedding them are modelled from the specification
and carry a doc comment saying so.

Machine integers are modelled as Int/Nat with explicit range checks; Rust
`f64` values are modelled as exact rationals produced by a simple decimal
grammar (the specification only requires "standard numeric parsing" with
failure reported as `ValueTypeError`).  Side-effecting entry points return
their printed lines explicitly; a Rust panic is modelled as `Option.none`.
-/

namespace Seahorse

/-- Modelled from the spec: the `FlagType` enumeration of flag.rs (missing
from the provided sources), §3: {Bool, String, Int, Uint, Float}. -/
inductive FlagType where
  | Bool
  | String
  | Int
  | Uint
  | Float
deriving DecidableEq, Repr

/-- Modelled from the spec: the `FlagValue` tagged union of flag.rs (missing
from the provided sources), §3.  `isize`/`usize` are 64-bit machine integers
modelled as Int/Nat with range checks at parse time; `f64` is modelled as an
exact rational. -/
inductive FlagValue where
  | bool (b : Bool)
  | string (s : String)
  | int (i : Int)
  | uint (u : Nat)
  | float (q : Rat)
deriving DecidableEq, Repr

/-- Modelled from the spec: the `FlagError` enumeration of error.rs (missing
from the provided sources), §7. -/
inductive FlagError where
  | NotFound
  | Undefined
  | TypeError
  | ValueTypeError
deriving DecidableEq, Repr

/-- Modelled from the spec: the `ActionErrorKind` enumeration of error.rs
(missing from the provided sources), §7: the only kind is NotFound. -/
inductive ActionErrorKind where
  | NotFound
deriving DecidableEq, Repr

/-- Modelled from the spec: the dynamic error type `Box<dyn Error>` returned
by `run_with_result`.  It is either the dispatcher's own `ActionError`
(error.rs, missing from the provided sources) or an arbitrary error value of
type `ε` produced by a result-returning action. -/
inductive DynError (ε : Type) where
  | actionError (kind : ActionErrorKind)
  | custom (e : ε)
deriving DecidableEq, Repr

/-- Decimal digits of a numeric token, most significant first; `none` if the
list is empty or contains a non-digit (helper for the spec-modelled parsers). -/
def parseDigits (cs : List Char) : Option Nat :=
  match cs with
  | [] => none
  | _ =>
    if cs.all Char.isDigit then
      some (cs.foldl (fun acc c => acc * 10 + (c.toNat - '0'.toNat)) 0)
    else none

/-- Modelled from the spec: Rust `str::parse::<isize>` (§4.1 step 4,
"standard numeric parsing") used by flag.rs (missing from the provided
sources): optional sign followed by decimal digits, within the 64-bit
signed range. -/
def parseIsize (s : String) : Option Int :=
  let signed : List Char → Bool → Option Int := fun cs neg =>
    match parseDigits cs with
    | none => none
    | some n =>
      if neg then
        if (n : Int) ≤ 2 ^ 63 then some (-(n : Int)) else none
      else
        if (n : Int) ≤ 2 ^ 63 - 1 then some (n : Int) else none
  match s.data with
  | '-' :: rest => signed rest true
  | '+' :: rest => signed rest false
  | cs => signed cs false

/-- Modelled from the spec: Rust `str::parse::<usize>` (§4.1 step 4) used by
flag.rs (missing from the provided sources): optional `+` sign followed by
decimal digits, within the 64-bit unsigned range. -/
def parseUsize (s : String) : Option Nat :=
  let go : List Char → Option Nat := fun cs =>
    match parseDigits cs with
    | none => none
    | some n => if n ≤ 2 ^ 64 - 1 then some n else none
  match s.data with
  | '+' :: rest => go rest
  | cs => go cs

/-- Modelled from the spec: Rust `str::parse::<f64>` (§4.1 step 4) used by
flag.rs (missing from the provided sources), abstracted to an exact decimal
grammar `[sign] digits [. digits]` producing a rational (exponent, infinity
and NaN forms are outside every behaviour the spec exercises). -/
def parseF64 (s : String) : Option Rat :=
  let unsigned : List Char → Option Rat := fun cs =>
    let intPart := cs.takeWhile (fun c => c ≠ '.')
    match cs.dropWhile (fun c => c ≠ '.') with
    | [] =>
      match parseDigits intPart with
      | some n => some (n : Rat)
      | none => none
    | '.' :: frac =>
      if intPart.all Char.isDigit ∧ frac.all Char.isDigit ∧
          (intPart ≠ [] ∨ frac ≠ []) then
        some ((parseDigits intPart).getD 0 +
          ((parseDigits frac).getD 0 : Rat) / ((10 : Rat) ^ frac.length))
      else none
    | _ => none
  match s.data with
  | '-' :: rest => (unsigned rest).map (fun q => -q)
  | '+' :: rest => unsigned rest
  | cs => unsigned cs

/-- Modelled from the spec: the `Flag` declaration record of flag.rs (missing
from the provided sources), §3 FlagDefinition: name, optional description,
type, optional aliases, multiplicity. -/
structure Flag where
  name : String
  description : Option String := none
  flag_type : FlagType
  «alias» : Option (List String) := none
  multiple : Bool := false

/-- Modelled from the spec: the token-match test behind `Flag::option_index`
(flag.rs, missing from the provided sources), §4.1 step 1: a token matches a
flag when it equals `--name`, or `-a`/`--a` for a declared alias `a`, by
exact string equality. -/
def Flag.isMatch (f : Flag) (t : String) : Bool :=
  t == "--" ++ f.name ||
    (match f.alias with
     | some as => as.any (fun a => t == "-" ++ a || t == "--" ++ a)
     | none => false)

/-- Modelled from the spec: `Flag::option_index` (flag.rs, missing from the
provided sources): the position of the first token matching the flag, here
with the bound carried in a `Fin` for the value/termination reasoning of the
scanner. -/
def Flag.option_index_fin (f : Flag) : (v : List String) → Option (Fin v.length)
  | [] => none
  | t :: rest =>
    if f.isMatch t then some ⟨0, Nat.succ_pos rest.length⟩
    else (f.option_index_fin rest).map (fun i => ⟨i.1 + 1, Nat.succ_lt_succ i.2⟩)

/-- Modelled from the spec: `Flag::option_index` as the `Option<usize>` the
Rust code returns. -/
def Flag.option_index (f : Flag) (v : List String) : Option Nat :=
  (f.option_index_fin v).map (fun i => i.1)

/-- Modelled from the spec: `Flag::value` (flag.rs, missing from the provided
sources), §4.1 steps 3–4: a Bool flag always coerces to `Bool(true)`;
other types require a raw value token (`NotFound` when absent) and coerce it
with the type's parser (`ValueTypeError` on parse failure). -/
def Flag.value (f : Flag) (val : Option String) : Except FlagError FlagValue :=
  match f.flag_type with
  | FlagType.Bool => Except.ok (FlagValue.bool true)
  | FlagType.String =>
    match val with
    | some s => Except.ok (FlagValue.string s)
    | none => Except.error FlagError.NotFound
  | FlagType.Int =>
    match val with
    | some s =>
      match parseIsize s with
      | some i => Except.ok (FlagValue.int i)
      | none => Except.error FlagError.ValueTypeError
    | none => Except.error FlagError.NotFound
  | FlagType.Uint =>
    match val with
    | some s =>
      match parseUsize s with
      | some u => Except.ok (FlagValue.uint u)
      | none => Except.error FlagError.ValueTypeError
    | none => Except.error FlagError.NotFound
  | FlagType.Float =>
    match val with
    | some s =>
      match parseF64 s with
      | some q => Except.ok (FlagValue.float q)
      | none => Except.error FlagError.ValueTypeError
    | none => Except.error FlagError.NotFound

/-- Splits a character list at the first `=`, dropping that `=` (helper for
the spec-modelled token normalization; mirrors Rust `splitn(2, '=')`). -/
def breakEq : List Char → List Char × List Char
  | [] => ([], [])
  | c :: rest =>
    if c = '=' then ([], rest)
    else
      let p := breakEq rest
      (c :: p.1, p.2)

/-- Modelled from the spec: the per-token step of `normalized_args`
(utils.rs, missing from the provided sources), §4.1 step 1: a token that
starts with `-` and contains `=` is split at its first `=` into two adjacent
tokens; every other token is kept as is. -/
def normalizeToken (cur : String) : List String :=
  if cur.data.head? = some '-' ∧ '=' ∈ cur.data then
    [String.mk (breakEq cur.data).1, String.mk (breakEq cur.data).2]
  else [cur]

/-- Modelled from the spec: `normalized_args` (utils.rs, missing from the
provided sources): pre-normalization of the whole argument vector. -/
def normalized_args (args : List String) : List String :=
  args.flatMap normalizeToken

/-- The `Context` type of src/context.rs: leftover positional tokens, the
per-flag outcome list (in declaration order, then occurrence order) and the
help text. -/
structure Context where
  args : List String
  flags : Option (List (String × Except FlagError FlagValue))
  help_text : String

/-- Value-token consumption inside the scanner loop of `Context::new`
(src/context.rs lines 30–38): after the matched flag token was removed at
`index`, a non-Bool flag takes the token now at `index` as its raw value
(none when the list is too short), a Bool flag takes none. -/
def consumeValue (f : Flag) (removed : List String) (index : Nat) :
    Option String × List String :=
  if f.flag_type ≠ FlagType.Bool then
    if removed.length ≤ index then (none, removed)
    else (some (removed.getD index ""), removed.eraseIdx index)
  else (none, removed)

/-- The inner `loop` of `Context::new` (src/context.rs lines 25–49) for one
flag: repeatedly find and remove the first matching token (and its value
token for non-Bool flags), record one outcome per occurrence; stop after one
occurrence unless the flag is `multiple`; when no occurrence is found, record
`NotFound` unless the flag is `multiple` and an occurrence was already found. -/
def scanLoop (f : Flag) (args : List String) (found : Bool) :
    List String × List (String × Except FlagError FlagValue) :=
  match f.option_index_fin args with
  | none =>
    (args,
      if !found || !f.multiple then [(f.name, Except.error FlagError.NotFound)]
      else [])
  | some index =>
    let removed := args.eraseIdx index.1
    let vr := consumeValue f removed index.1
    let entry := (f.name, f.value vr.1)
    if !f.multiple then (vr.2, [entry])
    else
      let r := scanLoop f vr.2 true
      (r.1, entry :: r.2)
termination_by args.length
decreasing_by
  have hi := index.2
  have h1 : (args.eraseIdx index.1).length = args.length - 1 := by
    simp [List.length_eraseIdx, hi]
  have h2 := List.Sublist.length_le
    (List.eraseIdx_sublist (args.eraseIdx index.1) index.1)
  simp only [consumeValue]
  split
  · split
    · show (args.eraseIdx index.1).length < args.length
      omega
    · show ((args.eraseIdx index.1).eraseIdx index.1).length < args.length
      omega
  · show (args.eraseIdx index.1).length < args.length
    omega

/-- The outer `for flag in flags` loop of `Context::new` (src/context.rs
lines 23–50): scan each declared flag in order against the current residual
token list, concatenating the recorded outcomes. -/
def scanAll : List Flag → List String →
    List String × List (String × Except FlagError FlagValue)
  | [], args => (args, [])
  | f :: rest, args =>
    let r1 := scanLoop f args false
    let r2 := scanAll rest r1.1
    (r2.1, r1.2 ++ r2.2)

/-- `Context::new` (src/context.rs lines 18–61). -/
def Context.new (args : List String) (flags : Option (List Flag))
    (help_text : String) : Context :=
  match flags with
  | none => ⟨args, none, help_text⟩
  | some fl =>
    let r := scanAll fl args
    ⟨r.1, some r.2, help_text⟩

/-- `Context::result_flag_value` (src/context.rs lines 64–77): the first
recorded outcome for the queried name; `Undefined` when no outcome carries
that name (in particular when no flags were declared at all). -/
def Context.result_flag_value (c : Context) (name : String) :
    Except FlagError FlagValue :=
  match c.flags with
  | none => Except.error FlagError.Undefined
  | some fl =>
    match fl.find? (fun flag => flag.1 == name) with
    | some f => f.2
    | none => Except.error FlagError.Undefined

/-- `Context::result_flag_value_vec` (src/context.rs lines 80–91): every
recorded outcome for the queried name, in order.  The Rust code calls
`.unwrap()` on the flag list, so a `Context` built with no declared flag
list panics here; the panic is modelled as `none`. -/
def Context.result_flag_value_vec (c : Context) (name : String) :
    Option (List (Except FlagError FlagValue)) :=
  match c.flags with
  | none => none
  | some fl => some (((fl.filter (fun flag => flag.1 == name)).map (fun f => f.2)))

/-- `Context::bool_flag` (src/context.rs lines 108–114). -/
def Context.bool_flag (c : Context) (name : String) : Bool :=
  match c.result_flag_value name with
  | Except.ok (FlagValue.bool val) => val
  | _ => false

/-- `Context::bool_flag_vec` (src/context.rs lines 132–142); `none` models
the `unwrap` panic of the underlying vector lookup. -/
def Context.bool_flag_vec (c : Context) (name : String) :
    Option (List (Except FlagError Bool)) :=
  (c.result_flag_value_vec name).map (fun rs => rs.map (fun r =>
    match r with
    | Except.ok (FlagValue.bool val) => Except.ok val
    | Except.error FlagError.NotFound => Except.error FlagError.NotFound
    | _ => Except.error FlagError.TypeError))

/-- `Context::string_flag` (src/context.rs lines 158–164): propagate a stored
error via `?`, re-validate the variant, `TypeError` on mismatch. -/
def Context.string_flag (c : Context) (name : String) :
    Except FlagError String :=
  match c.result_flag_value name with
  | Except.error e => Except.error e
  | Except.ok (FlagValue.string val) => Except.ok val
  | Except.ok _ => Except.error FlagError.TypeError

/-- `Context::string_flag_vec` (src/context.rs lines 182–192). -/
def Context.string_flag_vec (c : Context) (name : String) :
    Option (List (Except FlagError String)) :=
  (c.result_flag_value_vec name).map (fun rs => rs.map (fun r =>
    match r with
    | Except.ok (FlagValue.string val) => Except.ok val
    | Except.error FlagError.NotFound => Except.error FlagError.NotFound
    | _ => Except.error FlagError.TypeError))

/-- `Context::int_flag` (src/context.rs lines 208–214). -/
def Context.int_flag (c : Context) (name : String) : Except FlagError Int :=
  match c.result_flag_value name with
  | Except.error e => Except.error e
  | Except.ok (FlagValue.int val) => Except.ok val
  | Except.ok _ => Except.error FlagError.TypeError

/-- `Context::int_flag_vec` (src/context.rs lines 232–242). -/
def Context.int_flag_vec (c : Context) (name : String) :
    Option (List (Except FlagError Int)) :=
  (c.result_flag_value_vec name).map (fun rs => rs.map (fun r =>
    match r with
    | Except.ok (FlagValue.int val) => Except.ok val
    | Except.error FlagError.NotFound => Except.error FlagError.NotFound
    | _ => Except.error FlagError.TypeError))

/-- `Context::uint_flag` (src/context.rs lines 258–264). -/
def Context.uint_flag (c : Context) (name : String) : Except FlagError Nat :=
  match c.result_flag_value name with
  | Except.error e => Except.error e
  | Except.ok (FlagValue.uint val) => Except.ok val
  | Except.ok _ => Except.error FlagError.TypeError

/-- `Context::uint_flag_vec` (src/context.rs lines 282–292). -/
def Context.uint_flag_vec (c : Context) (name : String) :
    Option (List (Except FlagError Nat)) :=
  (c.result_flag_value_vec name).map (fun rs => rs.map (fun r =>
    match r with
    | Except.ok (FlagValue.uint val) => Except.ok val
    | Except.error FlagError.NotFound => Except.error FlagError.NotFound
    | _ => Except.error FlagError.TypeError))

/-- `Context::float_flag` (src/context.rs lines 308–314). -/
def Context.float_flag (c : Context) (name : String) : Except FlagError Rat :=
  match c.result_flag_value name with
  | Except.error e => Except.error e
  | Except.ok (FlagValue.float val) => Except.ok val
  | Except.ok _ => Except.error FlagError.TypeError

/-- `Context::float_flag_vec` (src/context.rs lines 332–344). -/
def Context.float_flag_vec (c : Context) (name : String) :
    Option (List (Except FlagError Rat)) :=
  (c.result_flag_value_vec name).map (fun rs => rs.map (fun r =>
    match r with
    | Except.ok (FlagValue.float val) => Except.ok val
    | Except.error FlagError.NotFound => Except.error FlagError.NotFound
    | _ => Except.error FlagError.TypeError))

/-- Modelled from the spec: the §3 CommandNode of command.rs (missing from
the provided sources): name, optional description/usage, alias set, flags,
at most one of a plain action and a result-returning action, and nested
child commands.  The error parameter `ε` is the payload type of the
`Box<dyn Error>` values result-returning actions may produce. -/
inductive Command (ε : Type) where
  | mk (name : String)
       (description : Option String)
       (usage : Option String)
       («alias» : Option (List String))
       (flags : Option (List Flag))
       (action : Option (Context → Unit))
       (action_with_result : Option (Context → Except (DynError ε) Unit))
       (commands : Option (List (Command ε)))

/-- Name projection of the spec-modelled CommandNode. -/
def Command.name : Command ε → String
  | Command.mk n _ _ _ _ _ _ _ => n

/-- Description projection of the spec-modelled CommandNode. -/
def Command.description : Command ε → Option String
  | Command.mk _ d _ _ _ _ _ _ => d

/-- Alias projection of the spec-modelled CommandNode. -/
def Command.aliasOf : Command ε → Option (List String)
  | Command.mk _ _ _ a _ _ _ _ => a

/-- Flags projection of the spec-modelled CommandNode. -/
def Command.flags : Command ε → Option (List Flag)
  | Command.mk _ _ _ _ fl _ _ _ => fl

/-- Plain-action projection of the spec-modelled CommandNode. -/
def Command.action : Command ε → Option (Context → Unit)
  | Command.mk _ _ _ _ _ a _ _ => a

/-- Result-returning-action projection of the spec-modelled CommandNode. -/
def Command.action_with_result : Command ε → Option (Context → Except (DynError ε) Unit)
  | Command.mk _ _ _ _ _ _ awr _ => awr

/-- Child-command projection of the spec-modelled CommandNode. -/
def Command.commands : Command ε → Option (List (Command ε))
  | Command.mk _ _ _ _ _ _ _ cs => cs

/-- Modelled from the spec: a command's help text (command.rs, missing from
the provided sources).  §6 declares the layout cosmetic and outside the
functional contract, so the text is abstracted to the command's name. -/
def Command.help_text (c : Command ε) : String :=
  c.name

/-- Modelled from the spec: child-command resolution at a command node,
§4.3 step 4 — the same exact name-or-alias matching in registration order
as `App::select_command`. -/
def Command.select_command (c : Command ε) (cmd : String) : Option (Command ε) :=
  match c.commands with
  | some commands =>
    commands.find? (fun command =>
      match command.aliasOf with
      | some as => command.name == cmd || as.any (fun a => a == cmd)
      | none => command.name == cmd)
  | none => none

/-- Modelled from the spec: the Executing state at a command node, §4.3
steps 5–6: a help token prints help and succeeds without invoking the
action; otherwise the configured action runs on a context built from the
remaining tokens; with no action at all, help is printed and an
`ActionError::NotFound` failure is signalled.  The second component is the
list of printed lines. -/
def Command.execNode (c : Command ε) (args : List String) :
    Except (DynError ε) Unit × List String :=
  if "-h" ∈ args ∨ "--help" ∈ args then (Except.ok (), [c.help_text])
  else
    match c.action with
    | some a =>
      let _ := a (Context.new args c.flags c.help_text)
      (Except.ok (), [])
    | none =>
      match c.action_with_result with
      | some f => (f (Context.new args c.flags c.help_text), [])
      | none =>
        (Except.error (DynError.actionError ActionErrorKind.NotFound),
          [c.help_text])

/-- Modelled from the spec: `Command::run_with_result` (command.rs, missing
from the provided sources), §4.3: normalize, split off the leading token,
recurse into a matching child with the remainder, otherwise execute this
node on all received tokens. -/
def Command.run_with_result : Command ε → List String →
    Except (DynError ε) Unit × List String
  | c, args0 =>
    let args := normalized_args args0
    match args with
    | [] => Command.execNode c []
    | cmd :: rest =>
      match _h : c.select_command cmd with
      | some child => Command.run_with_result child rest
      | none => Command.execNode c (cmd :: rest)
termination_by c _ => sizeOf c
decreasing_by
  have hmem : ∃ cs, c.commands = some cs ∧ child ∈ cs := by
    unfold Command.select_command at _h
    split at _h
    · exact ⟨_, by assumption, List.mem_of_find?_eq_some _h⟩
    · exact absurd _h (by simp)
  obtain ⟨cs, hcs, hin⟩ := hmem
  have h1 : sizeOf child < sizeOf cs := List.sizeOf_lt_of_mem hin
  cases c with
  | mk n d u a fl ac awr cmds =>
    simp only [Command.commands] at hcs
    subst hcs
    simp only [Command.mk.sizeOf_spec, Option.some.sizeOf_spec]
    omega

/-- The `App` record of src/app.rs (lines 9–29). -/
structure App (ε : Type) where
  name : String := ""
  author : Option String := none
  description : Option String := none
  usage : Option String := none
  version : Option String := none
  commands : Option (List (Command ε)) := none
  action : Option (Context → Unit) := none
  action_with_result : Option (Context → Except (DynError ε) Unit) := none
  flags : Option (List Flag) := none

/-- `App::new` (src/app.rs lines 41–46). -/
def App.new (ε : Type) (name : String) : App ε :=
  { name := name }

/-- `App::command` (src/app.rs lines 142–155): registration panics — here
`none` — exactly when an already-registered command has the same name;
aliases are not examined. -/
def App.command (app : App ε) (command : Command ε) : Option (App ε) :=
  match app.commands with
  | some commands =>
    if commands.any (fun registered => registered.name == command.name) then
      none
    else some { app with commands := some (commands ++ [command]) }
  | none => some { app with commands := some [command] }

/-- `App::flag` (src/app.rs lines 234–241). -/
def App.flag (app : App ε) (flag : Flag) : App ε :=
  match app.flags with
  | some flags => { app with flags := some (flags ++ [flag]) }
  | none => { app with flags := some [flag] }

/-- `App::select_command` (src/app.rs lines 330–338). -/
def App.select_command (app : App ε) (cmd : String) : Option (Command ε) :=
  match app.commands with
  | some commands =>
    commands.find? (fun command =>
      match command.aliasOf with
      | some as => command.name == cmd || as.any (fun a => a == cmd)
      | none => command.name == cmd)
  | none => none

/-- Spaces of the given width: Rust `" ".repeat(n)` used by the help-text
formatting of src/app.rs. -/
def spacesRep (n : Nat) : String :=
  String.mk (List.replicate n ' ')

/-- `App::flag_help_text` (src/app.rs lines 340–427), with Rust byte length
read as character length (all fixed text is ASCII). -/
def App.flag_help_text (app : App ε) : String :=
  let help_flag := "-h, --help"
  match app.flags with
  | some flags =>
    let flag_helps := flags.map (fun f =>
      let al := match f.alias with
        | some as =>
          String.intercalate ", "
            ((as.filter (fun a => a.length = 1)).map (fun a => "-" ++ a))
        | none => ""
      let long_alias := match f.alias with
        | some as =>
          String.intercalate ", "
            ((as.filter (fun a => 1 < a.length)).map (fun a => "--" ++ a))
        | none => ""
      let val := match f.flag_type with
        | FlagType.Int => "<int>"
        | FlagType.Float => "<float>"
        | FlagType.String => "<string>"
        | _ => ""
      let help :=
        if al = "" then
          if long_alias = "" then "--" ++ f.name ++ " " ++ val
          else long_alias ++ ", --" ++ f.name ++ ", " ++ val
        else
          if long_alias = "" then al ++ ", --" ++ f.name ++ " " ++ val
          else al ++ ", " ++ long_alias ++ ", --" ++ f.name ++ " " ++ val
      (help, f.description))
    let flag_name_max_len :=
      ((flag_helps.map (fun h => h.1.length)) ++ [help_flag.length]).foldl max 0
    "Flags:\n" ++
      String.join (flag_helps.map (fun fh =>
        "\t" ++ fh.1 ++
          (match fh.2 with
           | some usage =>
             spacesRep (flag_name_max_len - fh.1.length) ++ " : " ++ usage ++ "\n"
           | none => "\n"))) ++
      "\t" ++ help_flag ++ spacesRep (flag_name_max_len - help_flag.length) ++
      " : Show help\n"
  | none => "Flags:\n" ++ "\t" ++ help_flag ++ " : Show help\n"

/-- `App::command_help_text` (src/app.rs lines 429–469).  The Rust
`max().unwrap()` panics on `Some(vec![])`, a state unreachable through
`App::command`; the fold with default 0 agrees with it on every reachable
state. -/
def App.command_help_text (app : App ε) : String :=
  match app.commands with
  | some commands =>
    let name_max_len :=
      (commands.map (fun c =>
        (match c.aliasOf with
         | some as => String.intercalate ", " as ++ ", " ++ c.name
         | none => c.name).length)).foldl max 0
    "\nCommands:\n" ++
      String.join (commands.map (fun c =>
        let command_name := match c.aliasOf with
          | some as => String.intercalate ", " as ++ ", " ++ c.name
          | none => c.name
        let descr := match c.description with
          | some d => d
          | none => ""
        "\t" ++ command_name ++ " " ++
          spacesRep (name_max_len - command_name.length) ++ ": " ++ descr ++ "\n"))
  | none => ""

/-- `Help::help_text` for `App` (src/app.rs lines 472–499). -/
def App.help_text (app : App ε) : String :=
  "Name:\n\t" ++ app.name ++ "\n\n" ++
  (match app.author with
   | some a => "Author:\n\t" ++ a ++ "\n\n"
   | none => "") ++
  (match app.description with
   | some d => "Description:\n\t" ++ d ++ "\n\n"
   | none => "") ++
  (match app.usage with
   | some u => "Usage:\n\t" ++ u ++ "\n\n"
   | none => "") ++
  app.flag_help_text ++ app.command_help_text ++
  (match app.version with
   | some v => "\nVersion:\n\t" ++ v ++ "\n"
   | none => "")

/-- `App::run_with_result` (src/app.rs lines 274–326).  `none` models the
panic of `args[1..]` when the normalized vector is empty (Rust index out of
range); otherwise the result is paired with the list of printed lines.
Plain actions and result-returning actions are modelled as pure functions
of the `Context`, so only the dispatcher's own printing is recorded. -/
def App.run_with_result (app : App ε) (args0 : List String) :
    Option (Except (DynError ε) Unit × List String) :=
  let args := normalized_args args0
  match args with
  | [] => none
  | a0 :: rest =>
    let cmd_v := if rest.isEmpty then [a0] else rest.take 1
    let args_v := if rest.isEmpty then ([] : List String) else rest.drop 1
    match cmd_v.head? with
    | none =>
      some (Except.error (DynError.actionError ActionErrorKind.NotFound),
        [app.help_text])
    | some cmd =>
      match app.select_command cmd with
      | some command => some (command.run_with_result args_v)
      | none =>
        match app.action with
        | some action =>
          if "-h" ∈ a0 :: rest ∨ "--help" ∈ a0 :: rest then
            some (Except.ok (), [app.help_text])
          else
            let _ := action (Context.new rest app.flags app.help_text)
            some (Except.ok (), [])
        | none =>
          match app.action_with_result with
          | some awr =>
            if "-h" ∈ a0 :: rest ∨ "--help" ∈ a0 :: rest then
              some (Except.ok (), [app.help_text])
            else
              some (awr (Context.new rest app.flags app.help_text), [])
          | none => some (Except.ok (), [app.help_text])

/-- Outcome of the non-fallible entry point: a normal return or a panic. -/
inductive RunResult where
  | normal
  | panicked
deriving DecidableEq, Repr

/-- `App::run` (src/app.rs lines 255–260): panic on an `Err` from
`run_with_result`; a panic inside `run_with_result` itself propagates. -/
def App.run (app : App ε) (args : List String) : RunResult :=
  match app.run_with_result args with
  | some (Except.ok _, _) => RunResult.normal
  | some (Except.error _, _) => RunResult.panicked
  | none => RunResult.panicked

/-- The leading command token `run_with_result` extracts from a normalized
nonempty argument vector (src/app.rs lines 276–281): the program name when
it is the only token, the second token otherwise. -/
def appCmdToken : List String → String
  | [] => ""
  | a0 :: rest => if rest.isEmpty then a0 else rest.headD a0

/-- The remainder vector `run_with_result` hands to a matched command
(src/app.rs lines 276–279, 292). -/
def appArgsV : List String → List String
  | [] => []
  | _ :: rest => if rest.isEmpty then [] else rest.drop 1

/-- Concrete String-typed flag named `s`, used by concrete evaluations. -/
def flagS : Flag := { name := "s", flag_type := FlagType.String }

/-- Concrete Bool-typed flag named `b`, used by concrete evaluations. -/
def flagB : Flag := { name := "b", flag_type := FlagType.Bool }

/-- Concrete String-typed flag named `string`, used by concrete evaluations. -/
def flagString : Flag := { name := "string", flag_type := FlagType.String }

/-- Concrete `multiple` String-typed flag named `m`. -/
def flagMulti : Flag :=
  { name := "m", flag_type := FlagType.String, multiple := true }

/-- Concrete Int-typed flag named `i`. -/
def flagI : Flag := { name := "i", flag_type := FlagType.Int }

/-- Concrete command named `a` with alias `x` and no behaviour. -/
def cmdA : Command Unit := Command.mk "a" none none (some ["x"]) none none none none

/-- Concrete command named `b` with alias `x` and no behaviour. -/
def cmdB : Command Unit := Command.mk "b" none none (some ["x"]) none none none none

/-- Concrete command named `hello` with alias `h` and no behaviour. -/
def cmdHello : Command Unit :=
  Command.mk "hello" none none (some ["h"]) none none none none

/-- Concrete app with no commands, no action and no flags. -/
def appEmpty : App Unit := { name := "app" }

/-- Concrete app whose only behaviour is a plain action. -/
def appAction : App Unit := { name := "app", action := some (fun _ => ()) }

/-- Concrete app whose only behaviour is a result-returning action that
always fails with a custom error. -/
def appAwrErr : App Unit :=
  { name := "app",
    action_with_result := some (fun _ => Except.error (DynError.custom ())) }

/-- Concrete app with the single command `hello`. -/
def appHello : App Unit := { name := "app", commands := some [cmdHello] }

/-! ### Basic lemmas about the flag matcher -/

theorem isMatch_name (f : Flag) : f.isMatch ("--" ++ f.name) = true := by
  simp [Flag.isMatch]

theorem option_index_fin_eq_none_iff (f : Flag) (v : List String) :
    f.option_index_fin v = none ↔ ∀ t ∈ v, f.isMatch t = false := by
  induction v with
  | nil => simp [Flag.option_index_fin]
  | cons t rest ih =>
    by_cases h : f.isMatch t
    · simp [Flag.option_index_fin, h]
    · simp [Flag.option_index_fin, h, ih, eq_false_of_ne_true h]

theorem option_index_fin_boundary (f : Flag) (pre : List String) (tok : String)
    (rest : List String) (hpre : ∀ t ∈ pre, f.isMatch t = false)
    (htok : f.isMatch tok = true) :
    ∃ hlt : pre.length < (pre ++ tok :: rest).length,
      f.option_index_fin (pre ++ tok :: rest) = some ⟨pre.length, hlt⟩ := by
  induction pre with
  | nil => exact ⟨by simp, by simp [Flag.option_index_fin, htok]⟩
  | cons p ps ih =>
    have hp : f.isMatch p = false := hpre p (by simp)
    obtain ⟨hlt, heq⟩ := ih (fun t ht => hpre t (by simp [ht]))
    exact ⟨Nat.succ_lt_succ hlt, by simp [Flag.option_index_fin, hp, heq]⟩

theorem eraseIdx_append_cons (pre : List String) (x : String) (rest : List String) :
    (pre ++ x :: rest).eraseIdx pre.length = pre ++ rest := by
  induction pre with
  | nil => simp
  | cons p ps ih => simp [List.eraseIdx, ih]

theorem getD_append_cons (pre : List String) (x : String) (rest : List String)
    (d : String) : (pre ++ x :: rest).getD pre.length d = x := by
  induction pre with
  | nil => simp
  | cons p ps ih => simpa [List.getD] using ih

theorem consumeValue_arg_sublist (f : Flag) (removed : List String) (i : Nat) :
    (consumeValue f removed i).2.Sublist removed := by
  unfold consumeValue
  split
  · split
    · exact List.Sublist.refl removed
    · exact List.eraseIdx_sublist removed i
  · exact List.Sublist.refl removed

theorem consumeValue_len (f : Flag) (args : List String) (i : Nat)
    (hi : i < args.length) :
    (consumeValue f (args.eraseIdx i) i).2.length < args.length := by
  have h1 : (args.eraseIdx i).length = args.length - 1 := by
    simp [List.length_eraseIdx, hi]
  have h2 := List.Sublist.length_le
    (consumeValue_arg_sublist f (args.eraseIdx i) i)
  omega

/-! ### Unfolding lemmas for the scanner loop -/

theorem scanLoop_none (f : Flag) (args : List String) (found : Bool)
    (h : f.option_index_fin args = none) :
    scanLoop f args found =
      (args,
        if !found || !f.multiple then
          [(f.name, Except.error FlagError.NotFound)]
        else []) := by
  rw [scanLoop]
  simp [h]

theorem scanLoop_some (f : Flag) (args : List String) (found : Bool)
    (index : Fin args.length) (h : f.option_index_fin args = some index) :
    scanLoop f args found =
      if !f.multiple then
        ((consumeValue f (args.eraseIdx index.1) index.1).2,
          [(f.name, f.value (consumeValue f (args.eraseIdx index.1) index.1).1)])
      else
        ((scanLoop f (consumeValue f (args.eraseIdx index.1) index.1).2 true).1,
          (f.name, f.value (consumeValue f (args.eraseIdx index.1) index.1).1) ::
            (scanLoop f (consumeValue f (args.eraseIdx index.1) index.1).2 true).2) := by
  rw [scanLoop]
  simp [h]

theorem scanLoop_no_match (f : Flag) (args : List String) (found : Bool)
    (h : ∀ t ∈ args, f.isMatch t = false) :
    scanLoop f args found =
      (args,
        if !found || !f.multiple then
          [(f.name, Except.error FlagError.NotFound)]
        else []) :=
  scanLoop_none f args found ((option_index_fin_eq_none_iff f args).mpr h)

theorem scanLoop_entry_name (f : Flag) :
    ∀ n (args : List String), args.length ≤ n → ∀ found p,
      p ∈ (scanLoop f args found).2 → p.1 = f.name := by
  intro n
  induction n with
  | zero =>
    intro args hlen found p hp
    have : args = [] := List.eq_nil_of_length_eq_zero (Nat.le_zero.mp hlen)
    subst this
    rw [scanLoop_none f [] found (by simp [Flag.option_index_fin])] at hp
    split at hp <;> simp_all
  | succ n ih =>
    intro args hlen found p hp
    cases hoi : f.option_index_fin args with
    | none =>
      rw [scanLoop_none f args found hoi] at hp
      split at hp <;> simp_all
    | some index =>
      rw [scanLoop_some f args found index hoi] at hp
      have hrec := consumeValue_len f args index.1 index.2
      split at hp
      · simp at hp
        simp [hp]
      · rcases List.mem_cons.mp hp with hp | hp
        · simp [hp]
        · exact ih _ (by omega) true p hp

theorem scanLoop_arg_sublist (f : Flag) :
    ∀ n (args : List String), args.length ≤ n → ∀ found,
      (scanLoop f args found).1.Sublist args := by
  intro n
  induction n with
  | zero =>
    intro args hlen found
    have : args = [] := List.eq_nil_of_length_eq_zero (Nat.le_zero.mp hlen)
    subst this
    rw [scanLoop_none f [] found (by simp [Flag.option_index_fin])]
  | succ n ih =>
    intro args hlen found
    cases hoi : f.option_index_fin args with
    | none => rw [scanLoop_none f args found hoi]
    | some index =>
      rw [scanLoop_some f args found index hoi]
      have hsub : (consumeValue f (args.eraseIdx index.1) index.1).2.Sublist args :=
        List.Sublist.trans (consumeValue_arg_sublist f _ index.1)
          (List.eraseIdx_sublist args index.1)
      have hrec := consumeValue_len f args index.1 index.2
      split
      · exact hsub
      · exact List.Sublist.trans (ih _ (by omega) true) hsub

theorem scanAll_arg_sublist (fl : List Flag) (args : List String) :
    (scanAll fl args).1.Sublist args := by
  induction fl generalizing args with
  | nil => simp [scanAll]
  | cons f rest ih =>
    simp only [scanAll]
    exact List.Sublist.trans (ih _) (scanLoop_arg_sublist f _ args le_rfl false)

theorem scanAll_entry_name (fl : List Flag) (args : List String) :
    ∀ p ∈ (scanAll fl args).2, ∃ g ∈ fl, p.1 = g.name := by
  induction fl generalizing args with
  | nil => simp [scanAll]
  | cons f rest ih =>
    intro p hp
    simp only [scanAll, List.mem_append] at hp
    rcases hp with hp | hp
    · exact ⟨f, by simp, scanLoop_entry_name f args.length args le_rfl false p hp⟩
    · obtain ⟨g, hg, hname⟩ := ih _ p hp
      exact ⟨g, by simp [hg], hname⟩

/-! ### Coercion facts -/

theorem value_none_of_nonbool (f : Flag) (hb : f.flag_type ≠ FlagType.Bool) :
    f.value none = Except.error FlagError.NotFound := by
  unfold Flag.value
  cases hft : f.flag_type <;> simp_all

theorem value_of_bool (f : Flag) (hb : f.flag_type = FlagType.Bool)
    (v : Option String) : f.value v = Except.ok (FlagValue.bool true) := by
  unfold Flag.value
  rw [hb]

/-! ### Scanner shapes used by the claims -/

theorem option_index_eq_none_iff (f : Flag) (v : List String) :
    f.option_index v = none ↔ ∀ t ∈ v, f.isMatch t = false := by
  unfold Flag.option_index
  rw [Option.map_eq_none']
  exact option_index_fin_eq_none_iff f v

theorem option_index_boundary (f : Flag) (pre : List String) (tok : String)
    (rest : List String) (hpre : ∀ t ∈ pre, f.isMatch t = false)
    (htok : f.isMatch tok = true) :
    f.option_index (pre ++ tok :: rest) = some pre.length := by
  obtain ⟨hlt, heq⟩ := option_index_fin_boundary f pre tok rest hpre htok
  simp [Flag.option_index, heq]

theorem scanLoop_some_nat (f : Flag) (args : List String) (found : Bool)
    (i : Nat) (h : f.option_index args = some i) :
    scanLoop f args found =
      if !f.multiple then
        ((consumeValue f (args.eraseIdx i) i).2,
          [(f.name, f.value (consumeValue f (args.eraseIdx i) i).1)])
      else
        ((scanLoop f (consumeValue f (args.eraseIdx i) i).2 true).1,
          (f.name, f.value (consumeValue f (args.eraseIdx i) i).1) ::
            (scanLoop f (consumeValue f (args.eraseIdx i) i).2 true).2) := by
  unfold Flag.option_index at h
  cases hoi : f.option_index_fin args with
  | none => simp [hoi] at h
  | some index =>
    rw [hoi] at h
    have hidx : index.1 = i := by simpa using h
    subst hidx
    exact scanLoop_some f args found index hoi

theorem scanLoop_single_value (f : Flag) (s : String)
    (hb : f.flag_type ≠ FlagType.Bool) :
    scanLoop f ["--" ++ f.name, s] false = ([], [(f.name, f.value (some s))]) := by
  have hoi : f.option_index ["--" ++ f.name, s] = some 0 :=
    option_index_boundary f [] ("--" ++ f.name) [s] (by simp) (isMatch_name f)
  rw [scanLoop_some_nat f _ false 0 hoi]
  have hcv : consumeValue f [s] 0 = (some s, []) := by
    simp [consumeValue, hb, List.getD]
  by_cases hm : f.multiple
  · have h0 := scanLoop_none f [] true (by simp [Flag.option_index_fin])
    simp only [List.eraseIdx, hcv]
    simp [hm] at h0
    simp [hm, h0]
  · simp only [List.eraseIdx, hcv]
    simp [hm]

theorem scanLoop_missing_value (f : Flag)
    (hb : f.flag_type ≠ FlagType.Bool) :
    scanLoop f ["--" ++ f.name] false =
      ([], [(f.name, Except.error FlagError.NotFound)]) := by
  have hoi : f.option_index ["--" ++ f.name] = some 0 :=
    option_index_boundary f [] ("--" ++ f.name) [] (by simp) (isMatch_name f)
  rw [scanLoop_some_nat f _ false 0 hoi]
  have hcv : consumeValue f [] 0 = (none, []) := by
    simp [consumeValue, hb]
  by_cases hm : f.multiple
  · have h0 := scanLoop_none f [] true (by simp [Flag.option_index_fin])
    simp only [List.eraseIdx, hcv]
    simp [hm] at h0
    simp [hm, h0, value_none_of_nonbool f hb]
  · simp only [List.eraseIdx, hcv]
    simp [hm, value_none_of_nonbool f hb]

theorem scanLoop_bool_present (f : Flag) (args : List String)
    (hb : f.flag_type = FlagType.Bool) (found : Bool)
    (hex : ∃ t ∈ args, f.isMatch t = true) :
    ∃ tail, (scanLoop f args found).2 =
      (f.name, Except.ok (FlagValue.bool true)) :: tail := by
  cases hoi : f.option_index_fin args with
  | none =>
    rw [option_index_fin_eq_none_iff] at hoi
    obtain ⟨t, ht, hmt⟩ := hex
    simp [hoi t ht] at hmt
  | some index =>
    rw [scanLoop_some f args found index hoi]
    have hcv : (consumeValue f (args.eraseIdx index.1) index.1).1 = none := by
      simp [consumeValue, hb]
    split
    · exact ⟨[], by simp [hcv, value_of_bool f hb]⟩
    · refine ⟨(scanLoop f (consumeValue f (args.eraseIdx index.1) index.1).2 true).2,
        ?_⟩
      simp [hcv, value_of_bool f hb]

/-- The outcome block of a flag that never occurs, looked up through the
whole outcome list: provided the flag is the unique declared flag with its
name and no token of the residual argument list matches it, the first
recorded outcome under its name is `NotFound`. -/
theorem scanAll_find_no_match (f : Flag) :
    ∀ (fl : List Flag) (args : List String), f ∈ fl →
      (∀ g ∈ fl, g.name = f.name → g = f) →
      (∀ t ∈ args, f.isMatch t = false) →
      (scanAll fl args).2.find? (fun p => p.1 == f.name) =
        some (f.name, Except.error FlagError.NotFound) := by
  intro fl
  induction fl with
  | nil => intro args hmem; simp at hmem
  | cons g rest ih =>
    intro args hmem huniq hnomatch
    by_cases hgf : g.name = f.name
    · have hg : g = f := huniq g (by simp) hgf
      subst hg
      simp only [scanAll]
      rw [scanLoop_no_match g args false hnomatch]
      simp
    · have hf : f ∈ rest := by
        rcases List.mem_cons.mp hmem with h | h
        · exact absurd (congrArg Flag.name h.symm) hgf
        · exact h
      simp only [scanAll, List.find?_append]
      have hblock : ((scanLoop g args false).2.find?
          (fun p => p.1 == f.name)) = none := by
        rw [List.find?_eq_none]
        intro p hp
        have := scanLoop_entry_name g args.length args le_rfl false p hp
        simp [this, hgf]
      rw [hblock]
      simp only [Option.none_or]
      exact ih _ hf (fun h hh hn => huniq h (by simp [hh]) hn)
        (fun t ht => hnomatch t
          (List.Sublist.mem ht (scanLoop_arg_sublist g args.length args le_rfl false)))

/-- Outcome list of a `multiple` flag over an argument vector that supplies
the flag once per pair — canonical token, then the value token, then a gap
of non-matching tokens: one coerced outcome per pair, in order, plus the
`NotFound` outcome exactly when there was no pair at all and no occurrence
had been found before. -/
theorem scanLoop_pairs (f : Flag) (hm : f.multiple = true)
    (hb : f.flag_type ≠ FlagType.Bool) :
    ∀ (pairs : List (String × List String)) (pre : List String) (found : Bool),
      (∀ t ∈ pre, f.isMatch t = false) →
      (∀ p ∈ pairs, ∀ t ∈ p.2, f.isMatch t = false) →
      (scanLoop f
          (pre ++ pairs.flatMap (fun p => ("--" ++ f.name) :: p.1 :: p.2))
          found).2 =
        pairs.map (fun p => (f.name, f.value (some p.1))) ++
          (if pairs = [] ∧ found = false then
            [(f.name, Except.error FlagError.NotFound)]
          else []) := by
  intro pairs
  induction pairs with
  | nil =>
    intro pre found hpre _
    simp only [List.flatMap_nil, List.append_nil]
    rw [scanLoop_no_match f pre found hpre]
    cases found <;> simp [hm]
  | cons q rest ih =>
    intro pre found hpre hgaps
    have hq2 : ∀ t ∈ q.2, f.isMatch t = false :=
      fun t ht => hgaps q (by simp) t ht
    have hshape :
        pre ++ (q :: rest).flatMap (fun p => ("--" ++ f.name) :: p.1 :: p.2) =
          pre ++ ("--" ++ f.name) ::
            (q.1 :: (q.2 ++ rest.flatMap (fun p => ("--" ++ f.name) :: p.1 :: p.2))) := by
      simp
    have hoi : f.option_index
        (pre ++ ("--" ++ f.name) ::
          (q.1 :: (q.2 ++ rest.flatMap (fun p => ("--" ++ f.name) :: p.1 :: p.2)))) =
        some pre.length :=
      option_index_boundary f pre _ _ hpre (isMatch_name f)
    rw [hshape, scanLoop_some_nat f _ found pre.length hoi]
    have he1 : (pre ++ ("--" ++ f.name) ::
        (q.1 :: (q.2 ++ rest.flatMap (fun p => ("--" ++ f.name) :: p.1 :: p.2)))).eraseIdx
          pre.length =
        pre ++ (q.1 :: (q.2 ++ rest.flatMap (fun p => ("--" ++ f.name) :: p.1 :: p.2))) :=
      eraseIdx_append_cons _ _ _
    rw [he1]
    have hcv : consumeValue f
        (pre ++ (q.1 :: (q.2 ++ rest.flatMap (fun p => ("--" ++ f.name) :: p.1 :: p.2))))
        pre.length =
        (some q.1,
          pre ++ (q.2 ++ rest.flatMap (fun p => ("--" ++ f.name) :: p.1 :: p.2))) := by
      unfold consumeValue
      rw [if_pos hb]
      have hlen : ¬ ((pre ++ (q.1 ::
          (q.2 ++ rest.flatMap (fun p => ("--" ++ f.name) :: p.1 :: p.2)))).length ≤
            pre.length) := by
        simp
      rw [if_neg hlen, getD_append_cons, eraseIdx_append_cons]
    rw [hcv, hm]
    have hassoc :
        pre ++ (q.2 ++ rest.flatMap (fun p => ("--" ++ f.name) :: p.1 :: p.2)) =
          (pre ++ q.2) ++ rest.flatMap (fun p => ("--" ++ f.name) :: p.1 :: p.2) :=
      (List.append_assoc pre q.2 _).symm
    have hpre2 : ∀ t ∈ pre ++ q.2, f.isMatch t = false := by
      intro t ht
      rcases List.mem_append.mp ht with h | h
      · exact hpre t h
      · exact hq2 t h
    have hrec := ih (pre ++ q.2) true hpre2
      (fun p hp t ht => hgaps p (by simp [hp]) t ht)
    simp only [Bool.not_true, Bool.false_eq_true, if_false]
    rw [hassoc, hrec]
    simp

/-! ### Pre-normalization lemmas -/

theorem normalizeToken_ne_nil (cur : String) : normalizeToken cur ≠ [] := by
  unfold normalizeToken
  split <;> simp

theorem normalizeToken_keep (cur : String)
    (h : ¬ (cur.data.head? = some '-' ∧ '=' ∈ cur.data)) :
    normalizeToken cur = [cur] := by
  simp only [normalizeToken, if_neg h]

theorem breakEq_append (l1 l2 : List Char) (h : '=' ∉ l1) :
    breakEq (l1 ++ '=' :: l2) = (l1, l2) := by
  induction l1 with
  | nil => simp [breakEq]
  | cons c cs ih =>
    have hc : ¬ c = '=' := by
      intro hc
      exact h (by simp [hc])
    simp [breakEq, hc, ih (fun hm => h (by simp [hm]))]

theorem normalizeToken_split (a b : String) (ha : a.data.head? = some '-')
    (hne : '=' ∉ a.data) : normalizeToken (a ++ "=" ++ b) = [a, b] := by
  have hdata : (a ++ "=" ++ b).data = a.data ++ '=' :: b.data := by
    simp [String.data_append]
  have hcond : (a ++ "=" ++ b).data.head? = some '-' ∧ '=' ∈ (a ++ "=" ++ b).data := by
    constructor
    · rw [hdata]
      cases hd : a.data with
      | nil => simp [hd] at ha
      | cons c cs =>
        rw [hd] at ha
        simp at ha
        simp [hd, ha]
    · rw [hdata]
      simp
  rw [normalizeToken, if_pos hcond, hdata, breakEq_append a.data b.data hne]

theorem normalized_args_append (xs ys : List String) :
    normalized_args (xs ++ ys) = normalized_args xs ++ normalized_args ys :=
  List.flatMap_append xs ys normalizeToken

theorem normalized_args_ne_nil (args : List String) (h : args ≠ []) :
    normalized_args args ≠ [] := by
  cases args with
  | nil => exact absurd rfl h
  | cons a rest =>
    unfold normalized_args
    simp only [List.flatMap_cons]
    intro hc
    exact normalizeToken_ne_nil a (List.append_eq_nil.mp hc).1

theorem mem_normalized_args (t : String) (args : List String) (ht : t ∈ args)
    (hk : normalizeToken t = [t]) : t ∈ normalized_args args := by
  unfold normalized_args
  rw [List.mem_flatMap]
  exact ⟨t, ht, by simp [hk]⟩

/-! ### Context plumbing -/

theorem context_new_single (f : Flag) (args : List String) (ht : String) :
    Context.new args (some [f]) ht =
      ⟨(scanLoop f args false).1, some (scanLoop f args false).2, ht⟩ := by
  simp [Context.new, scanAll]

/-! ### Dispatcher plumbing -/

/-- Closed form of `App::run_with_result` on a vector whose normalization is
the nonempty list `a0 :: rest`: the dead `NotFound` branch is gone and the
leading command token is `appCmdToken`. -/
theorem run_with_result_eq {ε : Type} (app : App ε) (args : List String)
    (a0 : String) (rest : List String)
    (hn : normalized_args args = a0 :: rest) :
    App.run_with_result app args =
      (match app.select_command (appCmdToken (a0 :: rest)) with
       | some command => some (command.run_with_result (appArgsV (a0 :: rest)))
       | none =>
         match app.action with
         | some _ =>
           if "-h" ∈ a0 :: rest ∨ "--help" ∈ a0 :: rest then
             some (Except.ok (), [app.help_text])
           else some (Except.ok (), [])
         | none =>
           match app.action_with_result with
           | some awr =>
             if "-h" ∈ a0 :: rest ∨ "--help" ∈ a0 :: rest then
               some (Except.ok (), [app.help_text])
             else some (awr (Context.new rest app.flags app.help_text), [])
           | none => some (Except.ok (), [app.help_text])) := by
  simp only [App.run_with_result, hn]
  cases rest with
  | nil => simp [appCmdToken, appArgsV]
  | cons a1 rest' => simp [appCmdToken, appArgsV]

/-- C10: on a `Context` constructed with no declared flag list, every
vector-valued accessor panics (modelled `none`, the `unwrap` of `None`),
while the single-value accessors return `Undefined` — or `false` for
`bool_flag` — without panicking. -/
theorem c10_no_flag_list_vec_accessors_panic (args : List String) (ht n : String) :
    (Context.new args none ht).bool_flag_vec n = none ∧
    (Context.new args none ht).string_flag_vec n = none ∧
    (Context.new args none ht).int_flag_vec n = none ∧
    (Context.new args none ht).uint_flag_vec n = none ∧
    (Context.new args none ht).float_flag_vec n = none ∧
    (Context.new args none ht).string_flag n = Except.error FlagError.Undefined ∧
    (Context.new args none ht).int_flag n = Except.error FlagError.Undefined ∧
    (Context.new args none ht).uint_flag n = Except.error FlagError.Undefined ∧
    (Context.new args none ht).float_flag n = Except.error FlagError.Undefined ∧
    (Context.new args none ht).bool_flag n = false :=
  ⟨rfl, rfl, rfl, rfl, rfl, rfl, rfl, rfl, rfl, rfl⟩

/-- C1 (amended): an app with no registered commands, no plain action and no
result-returning action, invoked as `["app"]`, prints its help text and the
fallible entry point returns success (`Ok`), not an `ActionError::NotFound`
failure — the `NotFound` branch of `run_with_result` is unreachable for a
nonempty argument vector. -/
theorem c1_no_command_no_action_help_ok {ε : Type} (app : App ε)
    (hc : app.commands = none) (ha : app.action = none)
    (hw : app.action_with_result = none) :
    App.run_with_result app ["app"] = some (Except.ok (), [app.help_text]) := by
  have hn : normalized_args ["app"] = ["app"] := rfl
  rw [run_with_result_eq app ["app"] "app" [] hn]
  simp [App.select_command, hc, ha, hw, appCmdToken]

/-- C1 witness: the hypotheses of the amended claim hold for the concrete
empty app and the conclusion follows by the theorem. -/
theorem c1_no_command_no_action_help_ok_witness :
    App.run_with_result appEmpty ["app"] =
      some (Except.ok (), [App.help_text appEmpty]) :=
  c1_no_command_no_action_help_ok appEmpty rfl rfl rfl

/-- C1 counterexample: on the concrete app with no commands and no action,
invoked as `["app"]`, the fallible entry point returns `Ok` — not the
`ActionError::NotFound` failure the claim asserts. -/
theorem c1_counterexample :
    (App.run_with_result appEmpty ["app"]).map Prod.fst =
        some (Except.ok ()) ∧
      ∀ e out, App.run_with_result appEmpty ["app"] ≠
        some (Except.error e, out) := by
  constructor
  · rfl
  · intro e out h
    have h2 : (App.run_with_result appEmpty ["app"]).map Prod.fst =
        some (Except.error e) := by rw [h]; rfl
    rw [show (App.run_with_result appEmpty ["app"]).map Prod.fst =
      some (Except.ok ()) from rfl] at h2
    exact Except.noConfusion (Option.some.inj h2)

/-- C8: on an app with a configured action (plain or result-returning) and
no matching subcommand, an argument vector containing `-h` or `--help`
makes `run_with_result` print the help text and return success without
invoking the action (the result does not depend on the action). -/
theorem c8_help_token_bypasses_action {ε : Type} (app : App ε)
    (args : List String)
    (hact : app.action.isSome ∨ app.action_with_result.isSome)
    (hsel : app.select_command (appCmdToken (normalized_args args)) = none)
    (hhelp : "-h" ∈ args ∨ "--help" ∈ args) :
    App.run_with_result app args = some (Except.ok (), [app.help_text]) := by
  have hne : args ≠ [] := by
    rintro rfl
    rcases hhelp with h | h <;> simp at h
  obtain ⟨a0, rest, hn⟩ : ∃ a0 rest, normalized_args args = a0 :: rest := by
    cases h : normalized_args args with
    | nil => exact absurd h (normalized_args_ne_nil args hne)
    | cons a b => exact ⟨a, b, rfl⟩
  have hmem : "-h" ∈ a0 :: rest ∨ "--help" ∈ a0 :: rest := by
    rw [← hn]
    rcases hhelp with h | h
    · exact Or.inl (mem_normalized_args _ _ h (by decide))
    · exact Or.inr (mem_normalized_args _ _ h (by decide))
  rw [hn] at hsel
  rw [run_with_result_eq app args a0 rest hn, hsel]
  cases hA : app.action with
  | some a =>
    show (if "-h" ∈ a0 :: rest ∨ "--help" ∈ a0 :: rest then
        some (Except.ok (), [app.help_text])
      else some (Except.ok (), ([] : List String))) =
        some (Except.ok (), [app.help_text])
    rw [if_pos hmem]
  | none =>
    cases hW : app.action_with_result with
    | some awr =>
      show (if "-h" ∈ a0 :: rest ∨ "--help" ∈ a0 :: rest then
          some (Except.ok (), [app.help_text])
        else some (awr (Context.new rest app.flags app.help_text), [])) =
          some (Except.ok (), [app.help_text])
      rw [if_pos hmem]
    | none => simp [hA, hW] at hact

/-- C8 witness: the concrete app with a plain action, invoked as
`["app", "--help"]`. -/
theorem c8_help_token_bypasses_action_witness :
    App.run_with_result appAction ["app", "--help"] =
      some (Except.ok (), [App.help_text appAction]) :=
  c8_help_token_bypasses_action appAction ["app", "--help"]
    (Or.inl rfl) rfl (Or.inr (by decide))

/-- Branch equation: a matched command receives the remainder verbatim. -/
theorem rwr_branch_cmd {ε : Type} (app : App ε) (args : List String)
    (a0 : String) (rest : List String) (cmd : Command ε)
    (hn : normalized_args args = a0 :: rest)
    (hsel : app.select_command (appCmdToken (a0 :: rest)) = some cmd) :
    App.run_with_result app args =
      some (cmd.run_with_result (appArgsV (a0 :: rest))) := by
  rw [run_with_result_eq app args a0 rest hn, hsel]

/-- Branch equation: terminal node with a plain action. -/
theorem rwr_branch_action {ε : Type} (app : App ε) (args : List String)
    (a0 : String) (rest : List String) (a : Context → Unit)
    (hn : normalized_args args = a0 :: rest)
    (hsel : app.select_command (appCmdToken (a0 :: rest)) = none)
    (hA : app.action = some a) :
    App.run_with_result app args =
      if "-h" ∈ a0 :: rest ∨ "--help" ∈ a0 :: rest then
        some (Except.ok (), [app.help_text])
      else some (Except.ok (), []) := by
  rw [run_with_result_eq app args a0 rest hn, hsel, hA]

/-- Branch equation: terminal node with a result-returning action. -/
theorem rwr_branch_awr {ε : Type} (app : App ε) (args : List String)
    (a0 : String) (rest : List String)
    (f : Context → Except (DynError ε) Unit)
    (hn : normalized_args args = a0 :: rest)
    (hsel : app.select_command (appCmdToken (a0 :: rest)) = none)
    (hA : app.action = none) (hW : app.action_with_result = some f) :
    App.run_with_result app args =
      if "-h" ∈ a0 :: rest ∨ "--help" ∈ a0 :: rest then
        some (Except.ok (), [app.help_text])
      else some (f (Context.new rest app.flags app.help_text), []) := by
  rw [run_with_result_eq app args a0 rest hn, hsel, hA, hW]

/-- Branch equation: terminal node with no action at all. -/
theorem rwr_branch_no_action {ε : Type} (app : App ε) (args : List String)
    (a0 : String) (rest : List String)
    (hn : normalized_args args = a0 :: rest)
    (hsel : app.select_command (appCmdToken (a0 :: rest)) = none)
    (hA : app.action = none) (hW : app.action_with_result = none) :
    App.run_with_result app args = some (Except.ok (), [app.help_text]) := by
  rw [run_with_result_eq app args a0 rest hn, hsel, hA, hW]

/-- C2 (amended): for every App and every nonempty argument vector,
`run_with_result` returns a value; `run` panics exactly when that value is
an `Err`, and returns normally exactly when it is `Ok`.  At a terminal node
the result-returning action's outcome — `Ok` or its own error value — is
returned verbatim, and a matched command's result is returned verbatim.
On the empty vector both entry points panic on `args[1..]`, so `run` panics
without `run_with_result` returning an `Err`. -/
theorem c2_run_panics_iff_err {ε : Type} (app : App ε) (args : List String)
    (hne : args ≠ []) :
    (App.run_with_result app args).isSome ∧
    (App.run app args = RunResult.panicked ↔
      ∃ e out, App.run_with_result app args = some (Except.error e, out)) ∧
    (App.run app args = RunResult.normal ↔
      ∃ out, App.run_with_result app args = some (Except.ok (), out)) ∧
    (∀ f, app.action = none → app.action_with_result = some f →
      app.select_command (appCmdToken (normalized_args args)) = none →
      ¬ ("-h" ∈ normalized_args args) → ¬ ("--help" ∈ normalized_args args) →
      App.run_with_result app args =
        some (f (Context.new ((normalized_args args).drop 1) app.flags
          app.help_text), [])) ∧
    (∀ cmd, app.select_command (appCmdToken (normalized_args args)) = some cmd →
      App.run_with_result app args =
        some (cmd.run_with_result (appArgsV (normalized_args args)))) := by
  obtain ⟨a0, rest, hn⟩ : ∃ a0 rest, normalized_args args = a0 :: rest := by
    cases h : normalized_args args with
    | nil => exact absurd h (normalized_args_ne_nil args hne)
    | cons a b => exact ⟨a, b, rfl⟩
  have hsome : ∃ r, App.run_with_result app args = some r := by
    cases hsel : app.select_command (appCmdToken (a0 :: rest)) with
    | some cmd => exact ⟨_, rwr_branch_cmd app args a0 rest cmd hn hsel⟩
    | none =>
      cases hA : app.action with
      | some a =>
        have hb := rwr_branch_action app args a0 rest a hn hsel hA
        by_cases hh : "-h" ∈ a0 :: rest ∨ "--help" ∈ a0 :: rest
        · rw [if_pos hh] at hb
          exact ⟨_, hb⟩
        · rw [if_neg hh] at hb
          exact ⟨_, hb⟩
      | none =>
        cases hW : app.action_with_result with
        | some awr =>
          have hb := rwr_branch_awr app args a0 rest awr hn hsel hA hW
          by_cases hh : "-h" ∈ a0 :: rest ∨ "--help" ∈ a0 :: rest
          · rw [if_pos hh] at hb
            exact ⟨_, hb⟩
          · rw [if_neg hh] at hb
            exact ⟨_, hb⟩
        | none => exact ⟨_, rwr_branch_no_action app args a0 rest hn hsel hA hW⟩
  obtain ⟨r, hr⟩ := hsome
  refine ⟨by rw [hr]; rfl, ?_, ?_, ?_, ?_⟩
  · cases r with
    | mk r1 out =>
      cases r1 with
      | ok u =>
        cases u
        have hrun : App.run app args = RunResult.normal := by
          simp [App.run, hr]
        rw [hrun]
        constructor
        · intro h
          exact absurd h (by decide)
        · rintro ⟨e, out2, h⟩
          rw [hr] at h
          have h2 := (Prod.mk.injEq _ _ _ _).mp (Option.some.inj h)
          exact Except.noConfusion h2.1
      | error e =>
        have hrun : App.run app args = RunResult.panicked := by
          simp [App.run, hr]
        rw [hrun]
        exact iff_of_true rfl ⟨e, out, hr⟩
  · cases r with
    | mk r1 out =>
      cases r1 with
      | ok u =>
        cases u
        have hrun : App.run app args = RunResult.normal := by
          simp [App.run, hr]
        rw [hrun]
        exact iff_of_true rfl ⟨out, hr⟩
      | error e =>
        have hrun : App.run app args = RunResult.panicked := by
          simp [App.run, hr]
        rw [hrun]
        constructor
        · intro h
          exact absurd h (by decide)
        · rintro ⟨out2, h⟩
          rw [hr] at h
          have h2 := (Prod.mk.injEq _ _ _ _).mp (Option.some.inj h)
          exact Except.noConfusion h2.1
  · intro f hA hW hsel hh1 hh2
    rw [hn] at hsel hh1 hh2
    have hb := rwr_branch_awr app args a0 rest f hn hsel hA hW
    have hh : ¬ ("-h" ∈ a0 :: rest ∨ "--help" ∈ a0 :: rest) := by
      rintro (h | h)
      · exact hh1 h
      · exact hh2 h
    rw [if_neg hh] at hb
    rw [hn]
    exact hb
  · intro cmd hsel
    rw [hn] at hsel
    rw [hn]
    exact rwr_branch_cmd app args a0 rest cmd hn hsel

/-- C2 witness: the concrete app whose result-returning action always fails,
on the vector `["app"]`: `run_with_result` returns that error verbatim and
`run` panics. -/
theorem c2_run_panics_iff_err_witness :
    (App.run_with_result appAwrErr ["app"]).isSome ∧
    (App.run appAwrErr ["app"] = RunResult.panicked ↔
      ∃ e out, App.run_with_result appAwrErr ["app"] =
        some (Except.error e, out)) ∧
    (App.run appAwrErr ["app"] = RunResult.normal ↔
      ∃ out, App.run_with_result appAwrErr ["app"] =
        some (Except.ok (), out)) ∧
    (∀ f, appAwrErr.action = none → appAwrErr.action_with_result = some f →
      appAwrErr.select_command (appCmdToken (normalized_args ["app"])) = none →
      ¬ ("-h" ∈ normalized_args ["app"]) →
      ¬ ("--help" ∈ normalized_args ["app"]) →
      App.run_with_result appAwrErr ["app"] =
        some (f (Context.new ((normalized_args ["app"]).drop 1) appAwrErr.flags
          appAwrErr.help_text), [])) ∧
    (∀ cmd, appAwrErr.select_command (appCmdToken (normalized_args ["app"])) =
        some cmd →
      App.run_with_result appAwrErr ["app"] =
        some (cmd.run_with_result (appArgsV (normalized_args ["app"])))) :=
  c2_run_panics_iff_err appAwrErr ["app"] (by decide)

/-- C2 counterexample: on the empty argument vector `run` panics while
`run_with_result` does not return at all (it panics on `args[1..]`,
modelled as `none`), so "run panics iff run_with_result returns an Err" is
false as stated. -/
theorem c2_counterexample :
    App.run appEmpty [] = RunResult.panicked ∧
    App.run_with_result appEmpty [] = none ∧
    ¬ ∃ e out, App.run_with_result appEmpty [] = some (Except.error e, out) := by
  refine ⟨rfl, rfl, ?_⟩
  rintro ⟨e, out, h⟩
  rw [show App.run_with_result appEmpty [] = none from rfl] at h
  exact Option.noConfusion h

/-- First-match decomposition of `List.find?`. -/
theorem find?_decomp {α : Type} (p : α → Bool) :
    ∀ (l : List α) (a : α), l.find? p = some a →
      ∃ pre post, l = pre ++ a :: post ∧ (∀ x ∈ pre, p x = false) ∧
        p a = true := by
  intro l
  induction l with
  | nil => simp
  | cons x xs ih =>
    intro a h
    by_cases hpx : p x
    · rw [List.find?_cons_of_pos _ hpx] at h
      obtain rfl : x = a := Option.some.inj h
      exact ⟨[], xs, by simp, by simp, hpx⟩
    · rw [List.find?_cons_of_neg _ hpx] at h
      obtain ⟨pre, post, hsplit, hpre, hpa⟩ := ih a h
      exact ⟨x :: pre, post, by simp [hsplit], by
        intro y hy
        rcases List.mem_cons.mp hy with rfl | hy
        · exact eq_false_of_ne_true hpx
        · exact hpre y hy, hpa⟩

/-- The Boolean matcher of `select_command` holds exactly when the token
equals the command's name or is a member of its alias set. -/
theorem select_matcher_iff {ε : Type} (c : Command ε) (tok : String) :
    ((match c.aliasOf with
      | some as => c.name == tok || as.any (fun a => a == tok)
      | none => c.name == tok) = true) ↔
      (tok = c.name ∨ tok ∈ c.aliasOf.getD []) := by
  cases c.aliasOf with
  | none =>
    simp only [beq_iff_eq, Option.getD_none, List.not_mem_nil, or_false]
    exact eq_comm
  | some as =>
    simp only [Bool.or_eq_true, beq_iff_eq, List.any_eq_true, Option.getD_some]
    constructor
    · rintro (h | ⟨a, ha, rfl⟩)
      · exact Or.inl h.symm
      · exact Or.inr ha
    · rintro (h | h)
      · exact Or.inl h.symm
      · exact Or.inr ⟨tok, h, rfl⟩

/-- C7: `select_command` compares the leading token with each registered
command's name and alias set by exact string equality and returns the first
match in registration order (`none` only when no command matches at all);
dispatch hands the matched command the same remainder whichever of its
tokens — name or alias — was used, so the results coincide. -/
theorem c7_select_exact_first_match {ε : Type} (app : App ε) (tok : String) :
    (∀ cmd, app.select_command tok = some cmd →
      ∃ pre post, app.commands.getD [] = pre ++ cmd :: post ∧
        (tok = cmd.name ∨ tok ∈ cmd.aliasOf.getD []) ∧
        ∀ c ∈ pre, ¬ (tok = c.name ∨ tok ∈ c.aliasOf.getD [])) ∧
    (app.select_command tok = none →
      ∀ c ∈ app.commands.getD [], ¬ (tok = c.name ∨ tok ∈ c.aliasOf.getD [])) ∧
    (∀ (a0 t2 : String) (rest : List String) (cmd : Command ε),
      normalizeToken a0 = [a0] → normalizeToken tok = [tok] →
      normalizeToken t2 = [t2] →
      app.select_command tok = some cmd → app.select_command t2 = some cmd →
      App.run_with_result app (a0 :: tok :: rest) =
        App.run_with_result app (a0 :: t2 :: rest)) := by
  refine ⟨?_, ?_, ?_⟩
  · intro cmd hsel
    unfold App.select_command at hsel
    cases hc : app.commands with
    | none => rw [hc] at hsel; exact Option.noConfusion hsel
    | some cs =>
      rw [hc] at hsel
      obtain ⟨pre, post, hsplit, hpre, hcmd⟩ := find?_decomp _ cs cmd hsel
      refine ⟨pre, post, by simp [hc, hsplit], (select_matcher_iff cmd tok).mp hcmd,
        ?_⟩
      intro c hcpre hmatch
      have := hpre c hcpre
      rw [((select_matcher_iff c tok).mpr hmatch : _)] at this
      exact Bool.noConfusion this
  · intro hsel c hc hmatch
    unfold App.select_command at hsel
    cases hco : app.commands with
    | none => rw [hco] at hc; simp at hc
    | some cs =>
      rw [hco] at hsel hc
      simp only [Option.getD_some] at hc
      exact (List.find?_eq_none.mp hsel c hc)
        ((select_matcher_iff c tok).mpr hmatch)
  · intro a0 t2 rest cmd hka0 hktok hkt2 hsel1 hsel2
    have hn1 : normalized_args (a0 :: tok :: rest) =
        a0 :: (tok :: normalized_args rest) := by
      unfold normalized_args
      rw [List.flatMap_cons, List.flatMap_cons, hka0, hktok]
      rfl
    have hn2 : normalized_args (a0 :: t2 :: rest) =
        a0 :: (t2 :: normalized_args rest) := by
      unfold normalized_args
      rw [List.flatMap_cons, List.flatMap_cons, hka0, hkt2]
      rfl
    have hc1 : appCmdToken (a0 :: (tok :: normalized_args rest)) = tok := by
      simp [appCmdToken]
    have hc2 : appCmdToken (a0 :: (t2 :: normalized_args rest)) = t2 := by
      simp [appCmdToken]
    rw [rwr_branch_cmd app _ a0 (tok :: normalized_args rest) cmd hn1
        (by rw [hc1]; exact hsel1),
      rwr_branch_cmd app _ a0 (t2 :: normalized_args rest) cmd hn2
        (by rw [hc2]; exact hsel2)]
    rfl

/-- C7 witness: on the concrete app with command `hello` aliased `h`, the
token `hello` resolves to the command as first match, and dispatching
`["app","hello"]` and `["app","h"]` produce the same outcome. -/
theorem c7_select_exact_first_match_witness :
    (∃ pre post, appHello.commands.getD [] = pre ++ cmdHello :: post ∧
      ("hello" = cmdHello.name ∨ "hello" ∈ cmdHello.aliasOf.getD []) ∧
      ∀ c ∈ pre, ¬ ("hello" = c.name ∨ "hello" ∈ c.aliasOf.getD [])) ∧
    App.run_with_result appHello ["app", "hello"] =
      App.run_with_result appHello ["app", "h"] :=
  ⟨(c7_select_exact_first_match appHello "hello").1 cmdHello rfl,
    (c7_select_exact_first_match appHello "hello").2.2 "app" "h" [] cmdHello
      (by decide) (by decide) (by decide) rfl rfl⟩

/-- C6: a flag declared `multiple`, supplied `k ≥ 1` times — each occurrence
as its `--name` token followed by its value token, with arbitrary
non-matching tokens in between — yields from the vector-valued accessor a
vector of exactly `k` outcomes, one coerced outcome per supplied value, in
the order the values appeared in the argument vector. -/
theorem c6_multiple_flag_vector (f : Flag) (pairs : List (String × List String))
    (ht : String) (hm : f.multiple = true) (hb : f.flag_type ≠ FlagType.Bool)
    (hk : pairs ≠ [])
    (hgaps : ∀ p ∈ pairs, ∀ t ∈ p.2, f.isMatch t = false) :
    (Context.new (pairs.flatMap (fun p => ("--" ++ f.name) :: p.1 :: p.2))
        (some [f]) ht).result_flag_value_vec f.name =
      some (pairs.map (fun p => f.value (some p.1))) ∧
    ((Context.new (pairs.flatMap (fun p => ("--" ++ f.name) :: p.1 :: p.2))
        (some [f]) ht).result_flag_value_vec f.name).map List.length =
      some pairs.length := by
  have hscan := scanLoop_pairs f hm hb pairs [] false (by simp) hgaps
  rw [if_neg (by simp [hk])] at hscan
  simp only [List.nil_append, List.append_nil] at hscan
  have hvec : (Context.new (pairs.flatMap (fun p => ("--" ++ f.name) :: p.1 :: p.2))
      (some [f]) ht).result_flag_value_vec f.name =
      some (pairs.map (fun p => f.value (some p.1))) := by
    rw [context_new_single, Context.result_flag_value_vec]
    simp only [hscan]
    rw [List.filter_map]
    have hfilter : List.filter
        ((fun flag => flag.1 == f.name) ∘ (fun p => (f.name, f.value (some p.1))))
        pairs = pairs := by
      apply List.filter_eq_self.mpr
      intro p _
      simp
    rw [hfilter, List.map_map]
    rfl
  exact ⟨hvec, by rw [hvec]; simp⟩

/-- C6 witness: the concrete `multiple` string flag `m` supplied twice. -/
theorem c6_multiple_flag_vector_witness :
    (Context.new ([("v1", []), ("v2", [])].flatMap
        (fun p => ("--" ++ flagMulti.name) :: p.1 :: p.2))
      (some [flagMulti]) "").result_flag_value_vec flagMulti.name =
      some ([("v1", ([] : List String)), ("v2", [])].map
        (fun p => flagMulti.value (some p.1))) ∧
    ((Context.new ([("v1", []), ("v2", [])].flatMap
        (fun p => ("--" ++ flagMulti.name) :: p.1 :: p.2))
      (some [flagMulti]) "").result_flag_value_vec flagMulti.name).map
        List.length = some 2 :=
  c6_multiple_flag_vector flagMulti [("v1", []), ("v2", [])] "" rfl
    (by decide) (by decide) (by decide)

/-- `result_flag_value` through the scanner, as a lookup in the outcome
list. -/
theorem result_flag_value_eq (fl : List Flag) (args : List String)
    (ht n : String) :
    (Context.new args (some fl) ht).result_flag_value n =
      match (scanAll fl args).2.find? (fun p => p.1 == n) with
      | some p => p.2
      | none => Except.error FlagError.Undefined := by
  simp only [Context.new]
  rfl

/-- Every fallible typed accessor propagates a stored error unchanged (the
`?` operator of src/context.rs). -/
theorem accessors_propagate_error (c : Context) (n : String) (e : FlagError)
    (h : c.result_flag_value n = Except.error e) :
    c.string_flag n = Except.error e ∧
    c.int_flag n = Except.error e ∧
    c.uint_flag n = Except.error e ∧
    c.float_flag n = Except.error e := by
  unfold Context.string_flag Context.int_flag Context.uint_flag
    Context.float_flag
  rw [h]
  exact ⟨rfl, rfl, rfl, rfl⟩

/-- Stored outcome of the concrete string flag `s` supplied with value `x`. -/
theorem flagS_stored_ok :
    (Context.new ["--" ++ flagS.name, "x"] (some [flagS]) "").result_flag_value
      flagS.name = Except.ok (FlagValue.string "x") := by
  rw [result_flag_value_eq]
  have h := scanLoop_single_value flagS "x" (by decide)
  have h2 : (scanAll [flagS] ["--" ++ flagS.name, "x"]).2 =
      [(flagS.name, flagS.value (some "x"))] := by
    simp [scanAll, h]
  rw [h2]
  simp [Flag.value, flagS]

/-- C3 (amended): querying a name never declared yields `Undefined` from
every fallible accessor; querying a flag whose stored outcome is a
successfully coerced value with an accessor of a different type yields
`TypeError`, while a stored scan-time error (`NotFound`, `ValueTypeError`)
is propagated unchanged by every fallible accessor — so a declared but
omitted flag read through a wrong-typed accessor yields `NotFound`, not
`TypeError`; a non-numeric value token on an Int/Uint/Float flag yields
`ValueTypeError` when read; omitting a declared non-bool flag, or omitting
its value token, yields `NotFound` when read. -/
theorem c3_flag_error_taxonomy :
    (∀ (args : List String) (fl : List Flag) (ht n : String),
      (∀ f ∈ fl, f.name ≠ n) →
      ((Context.new args (some fl) ht).string_flag n =
          Except.error FlagError.Undefined ∧
        (Context.new args (some fl) ht).int_flag n =
          Except.error FlagError.Undefined ∧
        (Context.new args (some fl) ht).uint_flag n =
          Except.error FlagError.Undefined ∧
        (Context.new args (some fl) ht).float_flag n =
          Except.error FlagError.Undefined)) ∧
    (∀ (c : Context) (n : String) (v : FlagValue),
      c.result_flag_value n = Except.ok v →
      ((∀ i, v ≠ FlagValue.int i) →
        c.int_flag n = Except.error FlagError.TypeError) ∧
      ((∀ s, v ≠ FlagValue.string s) →
        c.string_flag n = Except.error FlagError.TypeError) ∧
      ((∀ u, v ≠ FlagValue.uint u) →
        c.uint_flag n = Except.error FlagError.TypeError) ∧
      ((∀ q, v ≠ FlagValue.float q) →
        c.float_flag n = Except.error FlagError.TypeError)) ∧
    (∀ (f : Flag) (s ht : String),
      (f.flag_type = FlagType.Int → parseIsize s = none →
        (Context.new ["--" ++ f.name, s] (some [f]) ht).int_flag f.name =
          Except.error FlagError.ValueTypeError) ∧
      (f.flag_type = FlagType.Uint → parseUsize s = none →
        (Context.new ["--" ++ f.name, s] (some [f]) ht).uint_flag f.name =
          Except.error FlagError.ValueTypeError) ∧
      (f.flag_type = FlagType.Float → parseF64 s = none →
        (Context.new ["--" ++ f.name, s] (some [f]) ht).float_flag f.name =
          Except.error FlagError.ValueTypeError)) ∧
    (∀ (f : Flag) (args : List String) (ht : String),
      f.flag_type ≠ FlagType.Bool → (∀ t ∈ args, f.isMatch t = false) →
      (Context.new args (some [f]) ht).result_flag_value f.name =
        Except.error FlagError.NotFound) ∧
    (∀ (f : Flag) (ht : String), f.flag_type ≠ FlagType.Bool →
      (Context.new ["--" ++ f.name] (some [f]) ht).result_flag_value f.name =
        Except.error FlagError.NotFound) := by
  have hnotfound : ∀ (f : Flag) (args : List String) (ht : String),
      f.flag_type ≠ FlagType.Bool → (∀ t ∈ args, f.isMatch t = false) →
      (Context.new args (some [f]) ht).result_flag_value f.name =
        Except.error FlagError.NotFound := by
    intro f args ht _ hnomatch
    rw [result_flag_value_eq,
      scanAll_find_no_match f [f] args (by simp)
        (by intro g hg _; simpa using hg) hnomatch]
  refine ⟨?_, ?_, ?_, hnotfound, ?_⟩
  · intro args fl ht n hnames
    have hmain : (Context.new args (some fl) ht).result_flag_value n =
        Except.error FlagError.Undefined := by
      rw [result_flag_value_eq]
      have hnone : (scanAll fl args).2.find? (fun p => p.1 == n) = none := by
        rw [List.find?_eq_none]
        intro p hp
        obtain ⟨g, hg, hpn⟩ := scanAll_entry_name fl args p hp
        simp [hpn, hnames g hg]
      rw [hnone]
    exact accessors_propagate_error _ n FlagError.Undefined hmain
  · intro c n v hok
    refine ⟨?_, ?_, ?_, ?_⟩ <;> intro hne
    · unfold Context.int_flag
      rw [hok]
      cases v with
      | int i => exact absurd rfl (hne i)
      | bool b => rfl
      | string s => rfl
      | uint u => rfl
      | float q => rfl
    · unfold Context.string_flag
      rw [hok]
      cases v with
      | string s => exact absurd rfl (hne s)
      | bool b => rfl
      | int i => rfl
      | uint u => rfl
      | float q => rfl
    · unfold Context.uint_flag
      rw [hok]
      cases v with
      | uint u => exact absurd rfl (hne u)
      | bool b => rfl
      | string s => rfl
      | int i => rfl
      | float q => rfl
    · unfold Context.float_flag
      rw [hok]
      cases v with
      | float q => exact absurd rfl (hne q)
      | bool b => rfl
      | string s => rfl
      | int i => rfl
      | uint u => rfl
  · intro f s ht
    refine ⟨?_, ?_, ?_⟩ <;> intro hft hparse
    · have hb : f.flag_type ≠ FlagType.Bool := by rw [hft]; exact fun h => FlagType.noConfusion h
      have hval : f.value (some s) = Except.error FlagError.ValueTypeError := by
        unfold Flag.value
        rw [hft]
        show (match parseIsize s with
          | some i => Except.ok (FlagValue.int i)
          | none => Except.error FlagError.ValueTypeError) =
            Except.error FlagError.ValueTypeError
        rw [hparse]
      have hmain : (Context.new ["--" ++ f.name, s] (some [f]) ht).result_flag_value
          f.name = Except.error FlagError.ValueTypeError := by
        rw [result_flag_value_eq]
        have h2 : (scanAll [f] ["--" ++ f.name, s]).2 =
            [(f.name, f.value (some s))] := by
          simp [scanAll, scanLoop_single_value f s hb]
        rw [h2]
        simp [hval]
      exact (accessors_propagate_error _ _ _ hmain).2.1
    · have hb : f.flag_type ≠ FlagType.Bool := by rw [hft]; exact fun h => FlagType.noConfusion h
      have hval : f.value (some s) = Except.error FlagError.ValueTypeError := by
        unfold Flag.value
        rw [hft]
        show (match parseUsize s with
          | some u => Except.ok (FlagValue.uint u)
          | none => Except.error FlagError.ValueTypeError) =
            Except.error FlagError.ValueTypeError
        rw [hparse]
      have hmain : (Context.new ["--" ++ f.name, s] (some [f]) ht).result_flag_value
          f.name = Except.error FlagError.ValueTypeError := by
        rw [result_flag_value_eq]
        have h2 : (scanAll [f] ["--" ++ f.name, s]).2 =
            [(f.name, f.value (some s))] := by
          simp [scanAll, scanLoop_single_value f s hb]
        rw [h2]
        simp [hval]
      exact (accessors_propagate_error _ _ _ hmain).2.2.1
    · have hb : f.flag_type ≠ FlagType.Bool := by rw [hft]; exact fun h => FlagType.noConfusion h
      have hval : f.value (some s) = Except.error FlagError.ValueTypeError := by
        unfold Flag.value
        rw [hft]
        show (match parseF64 s with
          | some q => Except.ok (FlagValue.float q)
          | none => Except.error FlagError.ValueTypeError) =
            Except.error FlagError.ValueTypeError
        rw [hparse]
      have hmain : (Context.new ["--" ++ f.name, s] (some [f]) ht).result_flag_value
          f.name = Except.error FlagError.ValueTypeError := by
        rw [result_flag_value_eq]
        have h2 : (scanAll [f] ["--" ++ f.name, s]).2 =
            [(f.name, f.value (some s))] := by
          simp [scanAll, scanLoop_single_value f s hb]
        rw [h2]
        simp [hval]
      exact (accessors_propagate_error _ _ _ hmain).2.2.2
  · intro f ht hb
    rw [result_flag_value_eq]
    have h2 : (scanAll [f] ["--" ++ f.name]).2 =
        [(f.name, Except.error FlagError.NotFound)] := by
      simp [scanAll, scanLoop_missing_value f hb]
    rw [h2]
    simp

/-- C3 witness: concrete instances of the amended taxonomy — an undeclared
name yields `Undefined`; a stored string value read as int yields
`TypeError`; a non-numeric token on an int flag yields `ValueTypeError`;
an omitted value token yields `NotFound`. -/
theorem c3_flag_error_taxonomy_witness :
    (Context.new [] (some [flagS]) "").string_flag "zzz" =
        Except.error FlagError.Undefined ∧
    (Context.new ["--" ++ flagS.name, "x"] (some [flagS]) "").int_flag
        flagS.name = Except.error FlagError.TypeError ∧
    (Context.new ["--" ++ flagI.name, "abc"] (some [flagI]) "").int_flag
        flagI.name = Except.error FlagError.ValueTypeError ∧
    (Context.new ["--" ++ flagI.name] (some [flagI]) "").result_flag_value
        flagI.name = Except.error FlagError.NotFound :=
  ⟨(c3_flag_error_taxonomy.1 [] [flagS] "" "zzz" (by decide)).1,
    (c3_flag_error_taxonomy.2.1 _ flagS.name (FlagValue.string "x")
        flagS_stored_ok).1 (fun i h => FlagValue.noConfusion h),
    (c3_flag_error_taxonomy.2.2.1 flagI "abc" "").1 rfl (by decide),
    c3_flag_error_taxonomy.2.2.2.2 flagI "" (by decide)⟩

/-- C3 counterexample: the concrete string flag `s` is declared but absent,
and the wrong-typed accessor `int_flag` yields `NotFound` — not the
`TypeError` the claim asserts for every wrong-typed query. -/
theorem c3_counterexample :
    (Context.new [] (some [flagS]) "").int_flag "s" =
        Except.error FlagError.NotFound ∧
    (Context.new [] (some [flagS]) "").int_flag "s" ≠
        Except.error FlagError.TypeError := by
  have hmain : (Context.new [] (some [flagS]) "").result_flag_value "s" =
      Except.error FlagError.NotFound := by
    rw [show "s" = flagS.name from rfl]
    rw [result_flag_value_eq,
      scanAll_find_no_match flagS [flagS] [] (by simp)
        (by intro g hg _; simpa using hg) (by simp)]
  have h := (accessors_propagate_error _ "s" FlagError.NotFound hmain).2.1
  refine ⟨h, ?_⟩
  rw [h]
  intro hc
  exact FlagError.noConfusion (Except.error.inj hc)

/-- Non-`multiple` scan over a vector whose first matching token is followed
by a value token: one coerced outcome, value and flag token removed. -/
theorem scanLoop_nonmult (f : Flag) (hm : f.multiple = false)
    (hb : f.flag_type ≠ FlagType.Bool) (pre : List String) (tok v : String)
    (rest : List String) (found : Bool)
    (hpre : ∀ t ∈ pre, f.isMatch t = false) (htok : f.isMatch tok = true) :
    scanLoop f (pre ++ tok :: v :: rest) found =
      (pre ++ rest, [(f.name, f.value (some v))]) := by
  have hoi : f.option_index (pre ++ tok :: v :: rest) = some pre.length :=
    option_index_boundary f pre tok (v :: rest) hpre htok
  rw [scanLoop_some_nat f _ found pre.length hoi]
  rw [eraseIdx_append_cons pre tok (v :: rest)]
  have hcv : consumeValue f (pre ++ v :: rest) pre.length =
      (some v, pre ++ rest) := by
    unfold consumeValue
    rw [if_pos hb]
    have hlen : ¬ ((pre ++ v :: rest).length ≤ pre.length) := by simp
    rw [if_neg hlen, getD_append_cons, eraseIdx_append_cons]
  rw [hcv, hm]
  rfl

/-- C4 (amended): provided the flag name contains no `=` and the value token
is not itself subject to `=`-splitting (it does not both start with `-` and
contain `=`), parsing with the two tokens `--name value` and parsing with
the single joined token `--name=value` normalize to the same token list, so
the resulting contexts — and hence the FlagValue outcome of every flag —
are identical.  A value that starts with `-` and contains `=` is split by
pre-normalization in the two-token form only, and the outcomes differ. -/
theorem c4_eq_and_space_forms_agree (pre post : List String)
    (name value : String) (fl : Option (List Flag)) (ht : String)
    (hname : '=' ∉ name.data)
    (hvalue : ¬ (value.data.head? = some '-' ∧ '=' ∈ value.data)) :
    Context.new (normalized_args (pre ++ ("--" ++ name) :: value :: post)) fl ht =
      Context.new (normalized_args (pre ++ ("--" ++ name ++ "=" ++ value) :: post))
        fl ht ∧
    ∀ n, (Context.new (normalized_args (pre ++ ("--" ++ name) :: value :: post))
        fl ht).result_flag_value n =
      (Context.new (normalized_args (pre ++ ("--" ++ name ++ "=" ++ value) :: post))
        fl ht).result_flag_value n := by
  have hdd : ("--" : String).data = ['-', '-'] := rfl
  have hk1 : normalizeToken ("--" ++ name) = ["--" ++ name] := by
    apply normalizeToken_keep
    rintro ⟨-, h2⟩
    rw [String.data_append, hdd] at h2
    rcases List.mem_append.mp h2 with h | h
    · simp at h
    · exact hname h
  have hk2 : normalizeToken value = [value] := normalizeToken_keep value hvalue
  have hk3 : normalizeToken ("--" ++ name ++ "=" ++ value) = ["--" ++ name, value] := by
    apply normalizeToken_split
    · rw [String.data_append, hdd]
      rfl
    · rw [String.data_append, hdd]
      intro h
      rcases List.mem_append.mp h with h | h
      · simp at h
      · exact hname h
  have hlist : normalized_args (pre ++ ("--" ++ name) :: value :: post) =
      normalized_args (pre ++ ("--" ++ name ++ "=" ++ value) :: post) := by
    rw [normalized_args_append, normalized_args_append]
    unfold normalized_args
    rw [List.flatMap_cons, List.flatMap_cons, List.flatMap_cons, hk1, hk2, hk3]
    simp
  exact ⟨by rw [hlist], fun n => by rw [hlist]⟩

/-- C4 witness: the concrete string flag `string`, with value `val`. -/
theorem c4_eq_and_space_forms_agree_witness :
    Context.new (normalized_args (["app"] ++ ("--" ++ "string") :: "val" :: []))
        (some [flagString]) "" =
      Context.new
        (normalized_args (["app"] ++ ("--" ++ "string" ++ "=" ++ "val") :: []))
        (some [flagString]) "" ∧
    ∀ n, (Context.new
        (normalized_args (["app"] ++ ("--" ++ "string") :: "val" :: []))
        (some [flagString]) "").result_flag_value n =
      (Context.new
        (normalized_args (["app"] ++ ("--" ++ "string" ++ "=" ++ "val") :: []))
        (some [flagString]) "").result_flag_value n :=
  c4_eq_and_space_forms_agree ["app"] [] "string" "val" (some [flagString]) ""
    (by decide) (by decide)

/-- C4 counterexample: for the declared non-multiple flag `string` and the
value `-a=b`, the two-token form parses to `Ok("-a")` (pre-normalization
splits the value token) while the joined form parses to `Ok("-a=b")`, so
the outcomes are not identical as the claim asserts for every value. -/
theorem c4_counterexample :
    (Context.new (normalized_args ["--string", "-a=b"]) (some [flagString])
        "").string_flag "string" = Except.ok "-a" ∧
    (Context.new (normalized_args ["--string=-a=b"]) (some [flagString])
        "").string_flag "string" = Except.ok "-a=b" ∧
    (Context.new (normalized_args ["--string", "-a=b"]) (some [flagString])
        "").string_flag "string" ≠
      (Context.new (normalized_args ["--string=-a=b"]) (some [flagString])
        "").string_flag "string" := by
  have hn1 : normalized_args ["--string", "-a=b"] = ["--string", "-a", "b"] := by
    decide
  have hn2 : normalized_args ["--string=-a=b"] = ["--string", "-a=b"] := by
    decide
  have h1 : scanLoop flagString ["--string", "-a", "b"] false =
      ([] ++ ["b"], [(flagString.name, flagString.value (some "-a"))]) :=
    scanLoop_nonmult flagString rfl (by decide) [] "--string" "-a" ["b"] false
      (by simp) (by decide)
  have h2 : scanLoop flagString ["--string", "-a=b"] false =
      ([] ++ [], [(flagString.name, flagString.value (some "-a=b"))]) :=
    scanLoop_nonmult flagString rfl (by decide) [] "--string" "-a=b" [] false
      (by simp) (by decide)
  have e1 : (Context.new (normalized_args ["--string", "-a=b"])
      (some [flagString]) "").string_flag "string" = Except.ok "-a" := by
    unfold Context.string_flag
    rw [hn1, result_flag_value_eq]
    have hall : (scanAll [flagString] ["--string", "-a", "b"]).2 =
        [(flagString.name, flagString.value (some "-a"))] := by
      simp [scanAll, h1]
    rw [hall]
    rfl
  have e2 : (Context.new (normalized_args ["--string=-a=b"])
      (some [flagString]) "").string_flag "string" = Except.ok "-a=b" := by
    unfold Context.string_flag
    rw [hn2, result_flag_value_eq]
    have hall : (scanAll [flagString] ["--string", "-a=b"]).2 =
        [(flagString.name, flagString.value (some "-a=b"))] := by
      simp [scanAll, h2]
    rw [hall]
    rfl
  refine ⟨e1, e2, ?_⟩
  rw [e1, e2]
  intro h
  exact absurd (Except.ok.inj h) (by decide)

/-- C5 (amended): for a Bool-typed declared flag, absence of every matching
token from the argument vector makes `bool_flag` return `false`, and
presence of a matching token makes it return `true` provided the flag is
declared first (an earlier-declared non-Bool flag can instead consume the
token as its value, leaving `false` — the known no-lookahead edge case);
the accessor returns a plain Bool, never an error. -/
theorem c5_bool_flag_presence (fl : List Flag) (args : List String)
    (ht : String) (f : Flag) :
    (f ∈ fl → (∀ g ∈ fl, g.name = f.name → g = f) →
      f.flag_type = FlagType.Bool → (∀ t ∈ args, f.isMatch t = false) →
      (Context.new args (some fl) ht).bool_flag f.name = false) ∧
    (∀ rest, fl = f :: rest → f.flag_type = FlagType.Bool →
      (∃ t ∈ args, f.isMatch t = true) →
      (Context.new args (some fl) ht).bool_flag f.name = true) := by
  constructor
  · intro hmem huniq _ hnomatch
    unfold Context.bool_flag
    rw [result_flag_value_eq, scanAll_find_no_match f fl args hmem huniq hnomatch]
  · rintro rest rfl hbool hex
    obtain ⟨tail, htail⟩ := scanLoop_bool_present f args hbool false hex
    unfold Context.bool_flag
    rw [result_flag_value_eq]
    have hfind : (scanAll (f :: rest) args).2.find? (fun p => p.1 == f.name) =
        some (f.name, Except.ok (FlagValue.bool true)) := by
      simp only [scanAll]
      rw [List.find?_append, htail, List.find?_cons_of_pos _ (by simp)]
      rfl
    rw [hfind]

/-- C5 witness: the concrete Bool flag `b` declared first — absent from
`["x"]` it reads `false`, present in `["--b"]` it reads `true`. -/
theorem c5_bool_flag_presence_witness :
    (Context.new ["x"] (some [flagB]) "").bool_flag flagB.name = false ∧
    (Context.new ["--b"] (some [flagB]) "").bool_flag flagB.name = true :=
  ⟨(c5_bool_flag_presence [flagB] ["x"] "" flagB).1 (by simp)
      (by intro g hg _; simpa using hg) rfl (by decide),
    (c5_bool_flag_presence [flagB] ["--b"] "" flagB).2 [] rfl rfl
      ⟨"--b", by decide, by decide⟩⟩

/-- C5 counterexample: with the string flag `s` declared before the Bool
flag `b`, the vector `["--s", "--b"]` contains `b`'s token, yet `bool_flag
"b"` is `false`: the earlier flag consumed `--b` as its value. -/
theorem c5_counterexample :
    (Context.new ["--s", "--b"] (some [flagS, flagB]) "").bool_flag "b" =
        false ∧
    "--b" ∈ ["--s", "--b"] ∧ flagB.flag_type = FlagType.Bool ∧
    flagB.isMatch "--b" = true := by
  refine ⟨?_, by decide, rfl, by decide⟩
  unfold Context.bool_flag
  rw [result_flag_value_eq]
  have hA : scanLoop flagS ["--s", "--b"] false =
      ([] ++ [], [(flagS.name, flagS.value (some "--b"))]) :=
    scanLoop_nonmult flagS rfl (by decide) [] "--s" "--b" [] false (by simp)
      (by decide)
  have hB : scanLoop flagB [] false =
      ([], [(flagB.name, Except.error FlagError.NotFound)]) := by
    rw [scanLoop_no_match flagB [] false (by simp)]
    rfl
  have h2 : (scanAll [flagS, flagB] ["--s", "--b"]).2 =
      [(flagS.name, flagS.value (some "--b")),
        (flagB.name, Except.error FlagError.NotFound)] := by
    simp [scanAll, hA, hB]
  rw [h2]
  decide

/-- Equation for `App::command` on an app with no registered commands. -/
theorem app_command_none {ε : Type} (app : App ε) (cmd : Command ε)
    (hc : app.commands = none) :
    App.command app cmd = some { app with commands := some [cmd] } := by
  unfold App.command
  rw [hc]

/-- Equation for `App::command` on an app with registered commands. -/
theorem app_command_some {ε : Type} (app : App ε) (cmd : Command ε)
    (cs : List (Command ε)) (hc : app.commands = some cs) :
    App.command app cmd =
      if (cs.any fun registered => registered.name == cmd.name) = true then none
      else some { app with commands := some (cs ++ [cmd]) } := by
  unfold App.command
  rw [hc]

/-- C9 (amended): `App::command` rejects (panics on) registration exactly
when the new command's name equals an already-registered command's name;
alias collisions are not examined, so a registered list can contain two
commands sharing an alias.  Apps built through `App::command` therefore
keep pairwise-distinct command names, but not alias disjointness. -/
theorem c9_command_registration {ε : Type} (app : App ε) (cmd : Command ε) :
    (App.command app cmd = none ↔
      ∃ cs, app.commands = some cs ∧ ∃ c ∈ cs, c.name = cmd.name) ∧
    ((app.commands.getD []).Pairwise (fun a b => a.name ≠ b.name) →
      ∀ app', App.command app cmd = some app' →
        (app'.commands.getD []).Pairwise (fun a b => a.name ≠ b.name)) := by
  constructor
  · cases hc : app.commands with
    | none =>
      rw [app_command_none app cmd hc]
      simp [hc]
    | some cs =>
      rw [app_command_some app cmd cs hc]
      by_cases hany : (cs.any fun registered => registered.name == cmd.name) = true
      · rw [if_pos hany]
        simp only [List.any_eq_true, beq_iff_eq] at hany
        exact iff_of_true rfl ⟨cs, rfl, hany⟩
      · rw [if_neg hany]
        simp only [List.any_eq_true, beq_iff_eq] at hany
        constructor
        · intro h
          exact Option.noConfusion h
        · rintro ⟨cs2, hcs2, hex⟩
          obtain rfl : cs = cs2 := Option.some.inj hcs2
          exact absurd hex hany
  · intro hpw app2 happ
    cases hc : app.commands with
    | none =>
      rw [app_command_none app cmd hc] at happ
      obtain rfl : _ = app2 := Option.some.inj happ
      simp
    | some cs =>
      rw [app_command_some app cmd cs hc] at happ
      rw [hc] at hpw
      simp only [Option.getD_some] at hpw
      by_cases hany : (cs.any fun registered => registered.name == cmd.name) = true
      · rw [if_pos hany] at happ
        exact Option.noConfusion happ
      · rw [if_neg hany] at happ
        obtain rfl : _ = app2 := Option.some.inj happ
        show (cs ++ [cmd]).Pairwise (fun a b => a.name ≠ b.name)
        rw [List.pairwise_append]
        refine ⟨hpw, by simp, ?_⟩
        intro a ha b hb
        simp only [List.mem_singleton] at hb
        subst hb
        intro heq
        rw [List.any_eq_true] at hany
        exact hany ⟨a, ha, by simp [heq]⟩

/-- C9 witness: registering `cmdA` on the empty app succeeds and preserves
pairwise-distinct names. -/
theorem c9_command_registration_witness :
    (App.command appEmpty cmdA = none ↔
      ∃ cs, appEmpty.commands = some cs ∧ ∃ c ∈ cs, c.name = cmdA.name) ∧
    ((({ name := "app", commands := some [cmdA] } : App Unit)).commands.getD
        []).Pairwise (fun a b => a.name ≠ b.name) :=
  ⟨(c9_command_registration appEmpty cmdA).1,
    (c9_command_registration appEmpty cmdA).2 (by simp [appEmpty])
      { name := "app", commands := some [cmdA] } rfl⟩

/-- C9 counterexample: two commands with distinct names but the same alias
`x` are both accepted by `App::command`, so the resulting command list
contains two commands sharing an alias, contradicting the claimed
construction-time rejection of alias collisions. -/
theorem c9_counterexample :
    Option.bind (App.command appEmpty cmdA) (fun a => App.command a cmdB) =
      some { name := "app", commands := some [cmdA, cmdB] } ∧
    "x" ∈ cmdA.aliasOf.getD [] ∧ "x" ∈ cmdB.aliasOf.getD [] ∧
    cmdA.name ≠ cmdB.name := by
  exact ⟨rfl, by decide, by decide, by decide⟩

end Seahorse
